import Mathlib

/-!
# genericfunc

A shallow embedding of `genericfunc.go`: a wrapper around a function value that
records the function's signature (`New`), checks it against an expected
specification (`SimpleParamValidator`) and later invokes the function with
loosely typed arguments (`GenericFunc.Call`).

The program is written against the host language's `reflect` package.  The part
of `reflect` the program uses is embedded below for a first-order fragment of the
type language: predeclared basic types, defined (named) types, slices and
pointers as parameter and result types, and function values over them.
Run-time panics are explicit: every operation that can panic returns
`Except Fault _`.
-/

namespace genericfunc

/-! ## Type descriptors (`reflect.Type`) -/

/-- Predeclared basic types. -/
inductive Basic where
  | bool | int | int8 | int16 | int32 | int64
  | uint | uint8 | uint16 | uint32 | uint64 | uintptr
  | float32 | float64 | complex64 | complex128 | string
  deriving DecidableEq

/-- Types of the modelled fragment.  `named n u` is a defined type with qualified
name `n` and underlying type `u`. -/
inductive GoType where
  | basic (b : Basic)
  | named (name : String) (underlying : GoType)
  | slice (elem : GoType)
  | ptr (elem : GoType)
  deriving DecidableEq

/-- Function types: the parameters before a variadic one, the element type `T`
of a final `...T` parameter when the function is variadic, and the results. -/
structure FuncType where
  params : List GoType
  variadic : Option GoType
  results : List GoType
  deriving DecidableEq

/-- The `reflect.Kind` of a type. -/
inductive Kind where
  | Invalid
  | Basic (b : Basic)
  | Func
  | Ptr
  | Slice
  deriving DecidableEq

/-- A `reflect.Type` interface value as stored in a slice: `none` is the nil
interface (the zero descriptor). -/
abbrev RType := Option GoType

/-- Run-time panics. -/
inductive Fault where
  | indexOutOfRange (index length : Nat)
  | nilDereference
  | reflectPanic (msg : String)
  | raised (msg : String)
  deriving DecidableEq

def Basic.String : Basic → String
  | .bool => "bool" | .int => "int" | .int8 => "int8" | .int16 => "int16"
  | .int32 => "int32" | .int64 => "int64" | .uint => "uint" | .uint8 => "uint8"
  | .uint16 => "uint16" | .uint32 => "uint32" | .uint64 => "uint64"
  | .uintptr => "uintptr" | .float32 => "float32" | .float64 => "float64"
  | .complex64 => "complex64" | .complex128 => "complex128" | .string => "string"

def Basic.isInt : Basic → Bool
  | .int | .int8 | .int16 | .int32 | .int64 => true
  | _ => false

def Basic.isUint : Basic → Bool
  | .uint | .uint8 | .uint16 | .uint32 | .uint64 | .uintptr => true
  | _ => false

def Basic.isFloat : Basic → Bool
  | .float32 | .float64 => true
  | _ => false

def Basic.isComplex : Basic → Bool
  | .complex64 | .complex128 => true
  | _ => false

def Kind.String : Kind → String
  | .Invalid => "invalid"
  | .Basic b => b.String
  | .Func => "func"
  | .Ptr => "ptr"
  | .Slice => "slice"

def GoType.Kind : GoType → Kind
  | .basic b => .Basic b
  | .named _ u => u.Kind
  | .slice _ => .Slice
  | .ptr _ => .Ptr

def GoType.String : GoType → String
  | .basic b => b.String
  | .named n _ => n
  | .slice e => "[]" ++ e.String
  | .ptr e => "*" ++ e.String

/-- The underlying type: a defined type's underlying type, any other type itself. -/
def GoType.underlying : GoType → GoType
  | .named _ u => u.underlying
  | t => t

/-- Defined types and the predeclared types have a name; type literals do not. -/
def GoType.hasName : GoType → Bool
  | .basic _ => true
  | .named _ _ => true
  | _ => false

/-- The method `Elem` on a slice or pointer type; it panics on every other kind. -/
def GoType.Elem (t : GoType) : Except Fault GoType :=
  match t.underlying with
  | .slice e => .ok e
  | .ptr e => .ok e
  | _ => .error (.reflectPanic ("reflect: Elem of invalid type " ++ t.String))

def joinTypes : List String → String
  | [] => ""
  | [s] => s
  | s :: rest => s ++ ", " ++ joinTypes rest

/-- All parameter types in declaration order; a variadic `...T` is listed as `[]T`. -/
def FuncType.ins (ft : FuncType) : List GoType :=
  ft.params ++ (match ft.variadic with
    | none => []
    | some T => [GoType.slice T])

def FuncType.IsVariadic (ft : FuncType) : Bool := ft.variadic.isSome

def FuncType.NumIn (ft : FuncType) : Nat := ft.ins.length

def FuncType.NumOut (ft : FuncType) : Nat := ft.results.length

def FuncType.In (ft : FuncType) (i : Nat) : Except Fault GoType :=
  match ft.ins[i]? with
  | some t => .ok t
  | none => .error (.reflectPanic "reflect: Func index out of bounds")

def FuncType.Out (ft : FuncType) (i : Nat) : Except Fault GoType :=
  match ft.results[i]? with
  | some t => .ok t
  | none => .error (.reflectPanic "reflect: Func index out of bounds")

def FuncType.String (ft : FuncType) : String :=
  "func(" ++
    joinTypes (ft.params.map GoType.String ++ (match ft.variadic with
      | none => []
      | some T => ["..." ++ T.String])) ++
    ")" ++
    (match ft.results with
      | [] => ""
      | [t] => " " ++ t.String
      | ts => " (" ++ joinTypes (ts.map GoType.String) ++ ")")

/-- Two types have identical underlying types. -/
def haveIdenticalUnderlyingType (T V : GoType) : Bool :=
  decide (T.underlying = V.underlying)

/-- A value of type `V` is directly assignable to `T`: the types are identical, or
their underlying types are identical and at least one of them has no name. -/
def directlyAssignable (T V : GoType) : Bool :=
  decide (T = V) ||
    (!(T.hasName && V.hasName) && decide (T.Kind = V.Kind) && haveIdenticalUnderlyingType T V)

/-- Element types that make a slice convertible from and to `string`: the types of
kind `uint8` and of kind `int32`, defined types of those kinds included. -/
def isByteOrRune (e : GoType) : Bool :=
  decide (e.Kind = Kind.Basic Basic.uint8) || decide (e.Kind = Kind.Basic Basic.int32)

def sliceElemIsByteOrRune (t : GoType) : Bool :=
  match t.underlying with
  | .slice e => isByteOrRune e
  | _ => false

def isUnnamedPtr : GoType → Bool
  | .ptr _ => true
  | _ => false

def ptrElemsIdenticalUnderlying : GoType → GoType → Bool
  | .ptr a, .ptr b => haveIdenticalUnderlyingType a b
  | _, _ => false

/-- The conversion rules of `reflect` (`convertOp` is non-nil) from `src` to `dst`. -/
def convertOp (dst src : GoType) : Bool :=
  (match src.Kind with
    | .Basic b =>
      if b.isInt || b.isUint then
        match dst.Kind with
        | .Basic c => c.isInt || c.isUint || c.isFloat || decide (c = .string)
        | _ => false
      else if b.isFloat then
        match dst.Kind with
        | .Basic c => c.isInt || c.isUint || c.isFloat
        | _ => false
      else if b.isComplex then
        match dst.Kind with
        | .Basic c => c.isComplex
        | _ => false
      else if decide (b = .string) then
        decide (dst.Kind = .Slice) && sliceElemIsByteOrRune dst
      else false
    | .Slice => decide (dst.Kind = .Basic .string) && sliceElemIsByteOrRune src
    | _ => false) ||
  haveIdenticalUnderlyingType dst src ||
  (isUnnamedPtr dst && isUnnamedPtr src && ptrElemsIdenticalUnderlying dst src)

/-- The dynamic type of a valid `reflect.Value`: a type of the fragment or a
function type. -/
inductive DynType where
  | data (t : GoType)
  | func (ft : FuncType)
  deriving DecidableEq

def DynType.String : DynType → String
  | .data t => t.String
  | .func ft => ft.String

/-- The method `ConvertibleTo`.  A function type is convertible to no type of the
fragment; a nil target panics. -/
def DynType.ConvertibleTo (src : DynType) (dst : RType) : Except Fault Bool :=
  match dst with
  | none => .error (.reflectPanic "reflect: nil type passed to Type.ConvertibleTo")
  | some d =>
    match src with
    | .data s => .ok (convertOp d s)
    | .func _ => .ok false

/-- The method `AssignableTo` with a target type of the fragment. -/
def DynType.AssignableTo (src : DynType) (dst : GoType) : Bool :=
  match src with
  | .data s => directlyAssignable dst s
  | .func _ => false

/-! ## Values -/

/-- Payloads of values of the fragment. -/
inductive Data where
  | bool (b : Bool)
  | int (i : Int)
  | bits (n : Nat)
  | str (s : String)
  | addr (a : Option Nat)
  | list (xs : List Data)

/-- A value together with its dynamic type. -/
structure GoValue where
  typ : GoType
  data : Data

/-- A function value: its type and its body.  The body receives one value per
parameter (a variadic parameter as one slice value) and returns the results in
declaration order, or panics. -/
structure FuncValue where
  typ : FuncType
  body : List GoValue → Except Fault (List GoValue)

/-- A value of static type `interface{}`. -/
inductive Iface where
  | nil
  | data (v : GoValue)
  | func (f : FuncValue)

/-- A `reflect.Value`; `invalid` is the zero Value. -/
inductive Value where
  | invalid
  | data (v : GoValue)
  | func (f : FuncValue)

def ValueOf : Iface → Value
  | .nil => .invalid
  | .data v => .data v
  | .func f => .func f

def Value.Kind : Value → Kind
  | .invalid => .Invalid
  | .data v => v.typ.Kind
  | .func _ => .Func

def Value.Type : Value → Except Fault DynType
  | .invalid => .error (.reflectPanic "reflect: call of reflect.Value.Type on zero Value")
  | .data v => .ok (.data v.typ)
  | .func f => .ok (.func f.typ)

def Value.Interface : Value → Except Fault Iface
  | .invalid => .error (.reflectPanic "reflect: call of reflect.Value.Interface on zero Value")
  | .data v => .ok (.data v)
  | .func f => .ok (.func f)

/-- Indexing `xs[i]` with the run-time bounds check. -/
def index {α : Type} (xs : List α) (i : Nat) : Except Fault α :=
  match xs[i]? with
  | some x => .ok x
  | none => .error (.indexOutOfRange i xs.length)

/-- The verb `%d` of `fmt` on a length or an index. -/
def fmtD (n : Nat) : String := toString n

/-- The verb `%s` of `fmt` on a `reflect.Type`: its `String()`, or the marker that
`fmt` prints for a nil operand. -/
def fmtS : RType → String
  | none => "%!s(<nil>)"
  | some t => t.String

/-! ## `reflect.Value.Call` -/

/-- One argument of `reflect.Value.Call` checked against the parameter type
`targ` and assigned to it. -/
def assignArg (x : Value) (targ : GoType) : Except Fault GoValue :=
  match x with
  | .invalid => .error (.reflectPanic "reflect: Call using zero Value argument")
  | .func f =>
    .error (.reflectPanic ("reflect: Call using " ++ f.typ.String ++ " as type " ++ targ.String))
  | .data v =>
    if (DynType.data v.typ).AssignableTo targ then .ok ⟨targ, v.data⟩
    else .error (.reflectPanic
      ("reflect: Call using " ++ v.typ.String ++ " as type " ++ targ.String))

/-- The loop `for i := 0; i < n; i++` over the non-variadic parameters. -/
def assignArgs : List Value → List GoType → Except Fault (List GoValue)
  | x :: xs, targ :: ts =>
    match assignArg x targ with
    | .error e => .error e
    | .ok v =>
      match assignArgs xs ts with
      | .error e => .error e
      | .ok vs => .ok (v :: vs)
  | _, _ => .ok []

/-- One element of the variadic tail checked against the element type. -/
def variadicElem (elem : GoType) (x : Value) : Except Fault Data :=
  match x with
  | .invalid => .error (.reflectPanic "reflect: Call using zero Value argument")
  | .func f =>
    .error (.reflectPanic
      ("reflect: cannot use " ++ f.typ.String ++ " as type " ++ elem.String ++ " in Call"))
  | .data v =>
    if (DynType.data v.typ).AssignableTo elem then .ok v.data
    else .error (.reflectPanic
      ("reflect: cannot use " ++ v.typ.String ++ " as type " ++ elem.String ++ " in Call"))

/-- The remaining arguments of a variadic call, packed into one slice payload. -/
def packVariadic (elem : GoType) : List Value → Except Fault (List Data)
  | [] => .ok []
  | x :: xs =>
    match variadicElem elem x with
    | .error e => .error e
    | .ok d =>
      match packVariadic elem xs with
      | .error e => .error e
      | .ok ds => .ok (d :: ds)

/-- The call of a function value through `reflect.Value.Call` (not `CallSlice`):
arity check, zero-Value check, assignability of the leading arguments, packing
of the variadic tail, then the function body. -/
def FuncValue.Call (f : FuncValue) (args : List Value) : Except Fault (List Value) :=
  let n := f.typ.params.length
  if args.length < n then
    .error (.reflectPanic "reflect: Call with too few input arguments")
  else if !f.typ.IsVariadic && decide (args.length > n) then
    .error (.reflectPanic "reflect: Call with too many input arguments")
  else if args.any (fun x => decide (x.Kind = Kind.Invalid)) then
    .error (.reflectPanic "reflect: Call using zero Value argument")
  else
    match assignArgs (args.take n) f.typ.params with
    | .error e => .error e
    | .ok fixed =>
      match f.typ.variadic with
      | none =>
        match f.body fixed with
        | .error e => .error e
        | .ok out => .ok (out.map Value.data)
      | some elem =>
        match packVariadic elem (args.drop n) with
        | .error e => .error e
        | .ok tail =>
          match f.body (fixed ++ [⟨GoType.slice elem, Data.list tail⟩]) with
          | .error e => .error e
          | .ok out => .ok (out.map Value.data)

/-- The method `reflect.Value.Call`: it panics unless the receiver is a function. -/
def Value.Call (v : Value) (args : List Value) : Except Fault (List Value) :=
  match v with
  | .func f => f.Call args
  | .invalid => .error (.reflectPanic "reflect: call of reflect.Value.Call on zero Value")
  | .data d =>
    .error (.reflectPanic
      ("reflect: call of reflect.Value.Call on " ++ d.typ.Kind.String ++ " Value"))

/-! ## The program -/

/-- The wildcard marker `genericType`: the descriptor of the defined type
`GenericType`, whose underlying type is `int`. -/
def genericType : RType := some (GoType.named "genericfunc.GenericType" (GoType.basic Basic.int))

/-- The signature record. -/
structure FunctionCache where
  FnValue : Value
  FnType : Option FuncType
  TypesIn : List RType
  TypesOut : List RType

/-- The wrapper. -/
structure GenericFunc where
  Cache : FunctionCache

/-- The error of `Call` for an argument that is not convertible. -/
def notConvertibleError (i : Nat) (paramType : DynType) (declared : RType) : String :=
  "GenericFunc.Call: params[" ++ fmtD i ++ "] '" ++ paramType.String ++
    "' is not convertible to '" ++ fmtS declared ++ "'"

/-- The first loop of `Call` from position `i` on: `.ok (.error msg)` is the early
return of an error, `.ok (.ok paramsIn)` the completed loop. -/
def Call.checkParams (TypesIn : List RType) :
    Nat → List Iface → Except Fault (Except String (List Value))
  | _, [] => .ok (.ok [])
  | i, param :: rest =>
    let paramValue := ValueOf param
    match paramValue.Type with
    | .error e => .error e
    | .ok paramType =>
      match index TypesIn i with
      | .error e => .error e
      | .ok declared =>
        let next : Except Fault (Except String (List Value)) :=
          match Call.checkParams TypesIn (i + 1) rest with
          | .error e => .error e
          | .ok (.error msg) => .ok (.error msg)
          | .ok (.ok paramsIn) => .ok (.ok (paramValue :: paramsIn))
        if declared ≠ genericType then
          match paramType.ConvertibleTo declared with
          | .error e => .error e
          | .ok conv =>
            if !conv then .ok (.error (notConvertibleError i paramType declared))
            else next
        else next

/-- The second loop of `Call`: every result boxed by `Interface()`. -/
def Call.box : List Value → Except Fault (List Iface)
  | [] => .ok []
  | item :: rest =>
    match item.Interface with
    | .error e => .error e
    | .ok x =>
      match Call.box rest with
      | .error e => .error e
      | .ok xs => .ok (x :: xs)

/-- The method `Call`: the pair of the result slice and the error, or a panic. -/
def GenericFunc.Call (d : GenericFunc) (params : List Iface) :
    Except Fault (Option (List Iface) × Option String) :=
  match Call.checkParams d.Cache.TypesIn 0 params with
  | .error e => .error e
  | .ok (.error msg) => .ok (none, some msg)
  | .ok (.ok paramsIn) =>
    match d.Cache.FnValue.Call paramsIn with
    | .error e => .error e
    | .ok paramsOut =>
      match Call.box paramsOut with
      | .error e => .error e
      | .ok interfaceOut => .ok (some interfaceOut, none)

/-- The loops of `New` that copy `In(i)` and `Out(i)` for `i` below the count. -/
def collectTypes (at_ : Nat → Except Fault GoType) : List Nat → Except Fault (List RType)
  | [] => .ok []
  | i :: rest =>
    match at_ i with
    | .error e => .error e
    | .ok t =>
      match collectTypes at_ rest with
      | .error e => .error e
      | .ok ts => .ok (some t :: ts)

/-- A validator `func(*FunctionCache) error`.  It receives the record by reference
and may write to it, so its outcome is the record as it leaves it together with the
error it returns, or a panic. -/
abbrev Validator := FunctionCache → Except Fault (FunctionCache × Option String)

/-- The validator made of a check that only reads the record. -/
def readOnly (check : FunctionCache → Except Fault (Option String)) : Validator :=
  fun cache =>
    match check cache with
    | .error e => .error e
    | .ok err => .ok (cache, err)

/-- The function `New`: the pair of the wrapper and the error, or a panic.  The
wrapper holds the record that was handed to the validator, as the validator left
it. -/
def New (fn : Iface) (validateFunc : Validator) :
    Except Fault (Option GenericFunc × Option String) :=
  let FnValue := ValueOf fn
  match FnValue with
  | .func f =>
    let FnType := f.typ
    let numTypesIn := FnType.NumIn
    match collectTypes FnType.In (List.range numTypesIn) with
    | .error e => .error e
    | .ok TypesIn =>
      let numTypesOut := FnType.NumOut
      match collectTypes FnType.Out (List.range numTypesOut) with
      | .error e => .error e
      | .ok TypesOut =>
        let cache : FunctionCache := ⟨FnValue, some FnType, TypesIn, TypesOut⟩
        match validateFunc cache with
        | .error e => .error e
        | .ok (_, some err) => .ok (none, some err)
        | .ok (validated, none) => .ok (some ⟨validated⟩, none)
  | _ => .ok (none, some "GenericFunc.New: fn is not a function")

/-- The loop over `In` from position `i` on. -/
def SimpleParamValidator.checkIn (cache : FunctionCache) :
    Nat → List RType → Except Fault (Option String)
  | _, [] => .ok none
  | i, paramIn :: rest =>
    if paramIn ≠ genericType then
      match index cache.TypesIn i with
      | .error e => .error e
      | .ok actualIn =>
        if paramIn ≠ actualIn then
          match index cache.TypesOut i with
          | .error e => .error e
          | .ok reported =>
            .ok (some ("SimpleParamValidator: parameter In[" ++ fmtD i ++ "] expected type: " ++
              fmtS paramIn ++ ", actual type: " ++ fmtS reported))
        else SimpleParamValidator.checkIn cache (i + 1) rest
    else SimpleParamValidator.checkIn cache (i + 1) rest

/-- The loop over `Out` from position `i` on. -/
def SimpleParamValidator.checkOut (cache : FunctionCache) :
    Nat → List RType → Except Fault (Option String)
  | _, [] => .ok none
  | i, paramOut :: rest =>
    if paramOut ≠ genericType then
      match index cache.TypesOut i with
      | .error e => .error e
      | .ok actualOut =>
        if paramOut ≠ actualOut then
          match paramOut with
          | none => .error .nilDereference
          | some expected =>
            match index cache.TypesOut i with
            | .error e => .error e
            | .ok none => .error .nilDereference
            | .ok (some reported) =>
              .ok (some ("SimpleParamValidator: parameter Out[" ++ fmtD i ++
                "] expected type: " ++ expected.String ++ ", actual type: " ++
                reported.Kind.String))
        else SimpleParamValidator.checkOut cache (i + 1) rest
    else SimpleParamValidator.checkOut cache (i + 1) rest

/-- The output half of the validator. -/
def SimpleParamValidator.outSide (Out : Option (List RType)) (cache : FunctionCache) :
    Except Fault (Option String) :=
  match Out with
  | none => .ok none
  | some outs =>
    if outs.length ≠ cache.TypesOut.length then
      .ok (some ("SimpleParamValidator: Number of parameters Out expected: " ++
        fmtD outs.length ++ ", actual: " ++ fmtD cache.TypesOut.length))
    else SimpleParamValidator.checkOut cache 0 outs

/-- The function `SimpleParamValidator`.  `none` for `In` or `Out` is the nil slice;
the returned validator only reads the record and yields `none` for a nil error.  It
is handed to `New` as `readOnly (SimpleParamValidator In Out)`. -/
def SimpleParamValidator (In Out : Option (List RType)) (cache : FunctionCache) :
    Except Fault (Option String) :=
  match In with
  | none => SimpleParamValidator.outSide Out cache
  | some ins =>
    if ins.length ≠ cache.TypesIn.length then
      .ok (some ("SimpleParamValidator: Number of parameters In expected: " ++
        fmtD ins.length ++ ", actual: " ++ fmtD cache.TypesIn.length))
    else
      match SimpleParamValidator.checkIn cache 0 ins with
      | .error e => .error e
      | .ok (some err) => .ok (some err)
      | .ok none => SimpleParamValidator.outSide Out cache

/-- The function `NewElemTypeSlice`: position `i` stays the zero descriptor unless
sample `i` has pointer kind; `reflect.TypeOf` of a nil sample is the nil
interface, on which the method call `Kind()` panics. -/
def NewElemTypeSlice : List Iface → Except Fault (List RType)
  | [] => .ok []
  | item :: rest =>
    match item with
    | .nil => .error .nilDereference
    | .func _ =>
      match NewElemTypeSlice rest with
      | .error e => .error e
      | .ok ts => .ok (none :: ts)
    | .data v =>
      if v.typ.Kind = Kind.Ptr then
        match v.typ.Elem with
        | .error e => .error e
        | .ok t =>
          match NewElemTypeSlice rest with
          | .error e => .error e
          | .ok ts => .ok (some t :: ts)
      else
        match NewElemTypeSlice rest with
        | .error e => .error e
        | .ok ts => .ok (none :: ts)

/-! ## Notions of the specification -/

/-- Stated from the specification: position by position, the expected type is the
wildcard marker or is identical to the actual type. -/
def positionsMatch (expected actual : List RType) : Prop :=
  ∀ i, i < expected.length → expected[i]? = some genericType ∨ expected[i]? = actual[i]?

/-- Stated from the specification: a side passes when its expected sequence is
omitted, or has the length of the actual sequence and matches it position by
position. -/
def sidePasses (expected : Option (List RType)) (actual : List RType) : Prop :=
  match expected with
  | none => True
  | some e => e.length = actual.length ∧ positionsMatch e actual

/-- Stated from the specification: the signature record of a function value. -/
def signatureOf (f : FuncValue) : FunctionCache :=
  ⟨Value.func f, some f.typ, f.typ.ins.map some, f.typ.results.map some⟩

/-- Stated from the specification: the run-time type of an argument; a nil argument
has none. -/
def runtimeType : Iface → Option DynType
  | .nil => none
  | .data v => some (.data v.typ)
  | .func f => some (.func f.typ)

/-! ## Functions and values of the test suite -/

/-- A sample `new(T)`: a non-nil pointer to a `T`. -/
def newSample (t : GoType) : Iface := .data ⟨.ptr t, .addr (some 0)⟩

/-- The function `func(item int) bool { return item > 10 }`. -/
def fnItemGt10 : FuncValue :=
  ⟨⟨[.basic .int], none, [.basic .bool]⟩, fun args =>
    match args with
    | [⟨_, .int item⟩] => .ok [⟨.basic .bool, .bool (decide (item > 10))⟩]
    | _ => .error (.raised "ill-typed call")⟩

/-- The function `func(idx, item int) {}`. -/
def fnIdxItem : FuncValue :=
  ⟨⟨[.basic .int, .basic .int], none, []⟩, fun _ => .ok []⟩

/-- The function `func(items ...int) bool { return false }`. -/
def fnItems : FuncValue :=
  ⟨⟨[], some (.basic .int), [.basic .bool]⟩, fun _ => .ok [⟨.basic .bool, .bool false⟩]⟩

/-- The function `func(i int) int { return i * 3 }`. -/
def fnTimes3 : FuncValue :=
  ⟨⟨[.basic .int], none, [.basic .int]⟩, fun args =>
    match args with
    | [⟨_, .int i⟩] => .ok [⟨.basic .int, .int (i * 3)⟩]
    | _ => .error (.raised "ill-typed call")⟩

/-- The function `func(x int) {}`. -/
def fnOneInt : FuncValue :=
  ⟨⟨[.basic .int], none, []⟩, fun _ => .ok []⟩

/-- The function `func(p *int, b int) {}`. -/
def fnPtrInt : FuncValue :=
  ⟨⟨[.ptr (.basic .int), .basic .int], none, []⟩, fun _ => .ok []⟩

/-- The string value `"Not a function"`. -/
def notAFunction : Iface := .data ⟨.basic .string, .str "Not a function"⟩

/-- The string argument `"not a int"`. -/
def notAnInt : Iface := .data ⟨.basic .string, .str "not a int"⟩

/-- The argument `3` of type `int`. -/
def three : Iface := .data ⟨.basic .int, .int 3⟩

/-- The slice `[]int{1, 2}`. -/
def intSlice12 : GoValue := ⟨.slice (.basic .int), .list [.int 1, .int 2]⟩

/-- The argument `int64(3)`. -/
def three64 : Iface := .data ⟨.basic .int64, .int 3⟩

/-! ## Further notions, functions and values -/

/-- Stated from the specification: the descriptor derived from a sample, the
pointed-to type of a pointer sample and the zero descriptor of any other sample. -/
def pointedTo : Iface → RType
  | .data v =>
    match v.typ.underlying with
    | .ptr e => some e
    | _ => none
  | _ => none

/-- The defined type `GenericType`. -/
def GenericType : GoType := .named "genericfunc.GenericType" (.basic .int)

/-- The function `func(g GenericType) {}`. -/
def fnGeneric : FuncValue :=
  ⟨⟨[GenericType], none, []⟩, fun _ => .ok []⟩

/-- The function `func() []int { return nil }`. -/
def fnIntSlice : FuncValue :=
  ⟨⟨[], none, [.slice (.basic .int)]⟩, fun _ => .ok [⟨.slice (.basic .int), .list []⟩]⟩

/-- The function `func() GenericType { return 0 }`. -/
def fnGenericResult : FuncValue :=
  ⟨⟨[], none, [GenericType]⟩, fun _ => .ok [⟨GenericType, .int 0⟩]⟩

/-- Stated from the specification: a validator that consumes the record read-only,
leaving it as it was given. -/
def leavesRecord (validateFunc : Validator) : Prop :=
  ∀ cache validated err, validateFunc cache = .ok (validated, err) → validated = cache

/-- The validator
`func(c *FunctionCache) error { c.TypesIn = nil; c.TypesOut = nil; return nil }`. -/
def clearingValidator : Validator :=
  fun cache => .ok (⟨cache.FnValue, cache.FnType, [], []⟩, none)

/-- The validator
`func(c *FunctionCache) error { c.TypesIn = []reflect.Type{g}; return nil }`, where
`g` is `reflect.TypeOf(new(GenericType)).Elem()`. -/
def wildcardingValidator : Validator :=
  fun cache => .ok (⟨cache.FnValue, cache.FnType, [genericType], cache.TypesOut⟩, none)

/-! ## Lemmas on indexing -/

theorem index_ok_iff {α : Type} (xs : List α) (i : Nat) (x : α) :
    index xs i = .ok x ↔ xs[i]? = some x := by
  unfold index
  cases h : xs[i]? <;> simp

theorem index_of_lt {α : Type} (xs : List α) (i : Nat) (h : i < xs.length) :
    index xs i = .ok (xs.get ⟨i, h⟩) := by
  rw [index_ok_iff]; simp [List.getElem?_eq_getElem h]

theorem index_of_le {α : Type} (xs : List α) (i : Nat) (h : xs.length ≤ i) :
    index xs i = .error (.indexOutOfRange i xs.length) := by
  unfold index
  rw [List.getElem?_eq_none h]

/-! ## The validator -/

theorem checkIn_ok_iff (cache : FunctionCache) (rest : List RType) (i : Nat) :
    SimpleParamValidator.checkIn cache i rest = .ok none ↔
      ∀ j, j < rest.length → rest[j]? = some genericType ∨ rest[j]? = cache.TypesIn[i + j]? := by
  induction rest generalizing i with
  | nil => simp [SimpleParamValidator.checkIn]
  | cons p rest ih =>
    have step : (∀ j, j < (p :: rest).length →
        (p :: rest)[j]? = some genericType ∨ (p :: rest)[j]? = cache.TypesIn[i + j]?) ↔
        ((p = genericType ∨ some p = cache.TypesIn[i]?) ∧
          ∀ j, j < rest.length →
            rest[j]? = some genericType ∨ rest[j]? = cache.TypesIn[i + 1 + j]?) := by
      constructor
      · intro h
        refine ⟨?_, fun j hj => ?_⟩
        · simpa using h 0 (by simp)
        · have := h (j + 1) (by simpa using hj)
          simpa [Nat.add_assoc, Nat.add_comm 1 j] using this
      · rintro ⟨h0, hs⟩ j hj
        cases j with
        | zero => simpa using h0
        | succ j =>
          have := hs j (by simpa using hj)
          simpa [Nat.add_assoc, Nat.add_comm 1 j] using this
    rw [step, SimpleParamValidator.checkIn]
    by_cases hp : p = genericType
    · simp [hp, ih (i + 1)]
    · simp only [ne_eq, hp, not_false_eq_true, if_true, false_or]
      cases hidx : cache.TypesIn[i]? with
      | none =>
        have : index cache.TypesIn i = .error (.indexOutOfRange i cache.TypesIn.length) := by
          unfold index; rw [hidx]
        simp [this]
      | some a =>
        have : index cache.TypesIn i = .ok a := by rw [index_ok_iff]; exact hidx
        simp only [this]
        by_cases hpa : p = a
        · simp [hpa, ih (i + 1)]
        · simp only [ne_eq, hpa, not_false_eq_true, if_true]
          have : ¬ some p = some a := by simpa using hpa
          simp only [this, false_and, iff_false]
          cases index cache.TypesOut i <;> simp

theorem checkOut_cons (cache : FunctionCache) (i : Nat) (paramOut : RType) (rest : List RType) :
    SimpleParamValidator.checkOut cache i (paramOut :: rest) =
      if paramOut ≠ genericType then
        match index cache.TypesOut i with
        | .error e => .error e
        | .ok actualOut =>
          if paramOut ≠ actualOut then
            match paramOut with
            | none => .error .nilDereference
            | some expected =>
              match index cache.TypesOut i with
              | .error e => .error e
              | .ok none => .error .nilDereference
              | .ok (some reported) =>
                .ok (some ("SimpleParamValidator: parameter Out[" ++ fmtD i ++
                  "] expected type: " ++ expected.String ++ ", actual type: " ++
                  reported.Kind.String))
          else SimpleParamValidator.checkOut cache (i + 1) rest
      else SimpleParamValidator.checkOut cache (i + 1) rest := rfl

theorem checkOut_ok_iff (cache : FunctionCache) (rest : List RType) (i : Nat) :
    SimpleParamValidator.checkOut cache i rest = .ok none ↔
      ∀ j, j < rest.length → rest[j]? = some genericType ∨ rest[j]? = cache.TypesOut[i + j]? := by
  induction rest generalizing i with
  | nil => simp [SimpleParamValidator.checkOut]
  | cons p rest ih =>
    have step : (∀ j, j < (p :: rest).length →
        (p :: rest)[j]? = some genericType ∨ (p :: rest)[j]? = cache.TypesOut[i + j]?) ↔
        ((p = genericType ∨ some p = cache.TypesOut[i]?) ∧
          ∀ j, j < rest.length →
            rest[j]? = some genericType ∨ rest[j]? = cache.TypesOut[i + 1 + j]?) := by
      constructor
      · intro h
        refine ⟨?_, fun j hj => ?_⟩
        · simpa using h 0 (by simp)
        · have := h (j + 1) (by simpa using hj)
          simpa [Nat.add_assoc, Nat.add_comm 1 j] using this
      · rintro ⟨h0, hs⟩ j hj
        cases j with
        | zero => simpa using h0
        | succ j =>
          have := hs j (by simpa using hj)
          simpa [Nat.add_assoc, Nat.add_comm 1 j] using this
    rw [step, checkOut_cons]
    by_cases hp : p = genericType
    · simp [hp, ih (i + 1)]
    · simp only [ne_eq, hp, not_false_eq_true, if_true, false_or]
      cases hidx : cache.TypesOut[i]? with
      | none =>
        have : index cache.TypesOut i = .error (.indexOutOfRange i cache.TypesOut.length) := by
          unfold index; rw [hidx]
        simp [this]
      | some a =>
        have : index cache.TypesOut i = .ok a := by rw [index_ok_iff]; exact hidx
        simp only [this]
        by_cases hpa : p = a
        · simp [hpa, ih (i + 1)]
        · simp only [ne_eq, hpa, not_false_eq_true, if_true]
          have : ¬ some p = some a := by simpa using hpa
          simp only [this, false_and, iff_false]
          cases p <;> cases a <;> simp

theorem outSide_ok_iff (Out : Option (List RType)) (cache : FunctionCache) :
    SimpleParamValidator.outSide Out cache = .ok none ↔ sidePasses Out cache.TypesOut := by
  cases Out with
  | none => simp [SimpleParamValidator.outSide, sidePasses]
  | some outs =>
    unfold SimpleParamValidator.outSide sidePasses positionsMatch
    by_cases hlen : outs.length = cache.TypesOut.length
    · simp [hlen, checkOut_ok_iff]
    · simp [hlen]

/-- C1: the validator returns no error exactly when the input side and the output
side both pass, a side passing when its expected sequence is omitted or has the
record's length and at every position holds the wildcard marker or the record's
type. -/
theorem SimpleParamValidator_ok_iff (In Out : Option (List RType)) (cache : FunctionCache) :
    SimpleParamValidator In Out cache = .ok none ↔
      sidePasses In cache.TypesIn ∧ sidePasses Out cache.TypesOut := by
  cases In with
  | none => simp [SimpleParamValidator, outSide_ok_iff, sidePasses]
  | some ins =>
    rw [SimpleParamValidator, ← outSide_ok_iff]
    by_cases hlen : ins.length = cache.TypesIn.length
    · have hin := checkIn_ok_iff cache ins 0
      simp only [Nat.zero_add, hlen] at hin
      simp only [ne_eq, hlen, not_true_eq_false, if_false, sidePasses, positionsMatch, true_and]
      rw [← hin]
      cases hc : SimpleParamValidator.checkIn cache 0 ins with
      | error e => simp
      | ok r => cases r <;> simp
    · simp [hlen, sidePasses]

theorem collectTypes_getElem (l : List GoType) (js : List Nat) (h : ∀ j ∈ js, j < l.length) :
    collectTypes (fun i => match l[i]? with
      | some t => .ok t
      | none => .error (.reflectPanic "reflect: Func index out of bounds")) js =
      .ok (js.map (fun j => l[j]?)) := by
  induction js with
  | nil => rfl
  | cons j js ih =>
    have hj : j < l.length := h j (by simp)
    have ih2 := ih (fun k hk => h k (by simp [hk]))
    simp only [collectTypes, List.getElem?_eq_getElem hj, ih2, List.map_cons]

theorem map_getElem_range (l : List GoType) :
    (List.range l.length).map (fun j => l[j]?) = l.map some := by
  apply List.ext_getElem
  · simp
  · intro i h1 h2
    simp at h1
    simp [List.getElem?_eq_getElem h1]

theorem collectTypes_In (ft : FuncType) :
    collectTypes ft.In (List.range ft.NumIn) = .ok (ft.ins.map some) := by
  have := collectTypes_getElem ft.ins (List.range ft.ins.length) (by simp)
  rw [map_getElem_range] at this
  exact this

theorem collectTypes_Out (ft : FuncType) :
    collectTypes ft.Out (List.range ft.NumOut) = .ok (ft.results.map some) := by
  have := collectTypes_getElem ft.results (List.range ft.results.length) (by simp)
  rw [map_getElem_range] at this
  exact this

theorem New_func (f : FuncValue) (validateFunc : Validator) :
    New (.func f) validateFunc =
      match validateFunc (signatureOf f) with
      | .error e => .error e
      | .ok (_, some err) => .ok (none, some err)
      | .ok (validated, none) => .ok (some ⟨validated⟩, none) := by
  simp only [New, ValueOf, collectTypes_In, collectTypes_Out, signatureOf]

theorem readOnly_eq (check : FunctionCache → Except Fault (Option String))
    (cache : FunctionCache) :
    readOnly check cache =
      match check cache with
      | .error e => .error e
      | .ok err => .ok (cache, err) := rfl

theorem readOnly_leavesRecord (check : FunctionCache → Except Fault (Option String)) :
    leavesRecord (readOnly check) := by
  intro c c2 e h
  rw [readOnly_eq] at h
  cases hc : check c with
  | error e2 => simp [hc] at h
  | ok err =>
    simp only [hc, Except.ok.injEq, Prod.mk.injEq] at h
    exact h.1.symm

theorem New_ok_wrapper (f : FuncValue) (validateFunc : Validator) (w : GenericFunc)
    (hro : leavesRecord validateFunc)
    (h : New (.func f) validateFunc = .ok (some w, none)) : w = ⟨signatureOf f⟩ := by
  rw [New_func] at h
  cases hv : validateFunc (signatureOf f) with
  | error e => simp [hv] at h
  | ok r =>
    obtain ⟨c, err⟩ := r
    have hc : c = signatureOf f := hro _ _ _ hv
    subst hc
    cases err with
    | some msg => simp [hv] at h
    | none =>
      simp only [hv, Except.ok.injEq, Prod.mk.injEq, Option.some.injEq, and_true] at h
      exact h.symm

/-! ## Construction -/

/-- C3: for a value that is not a function, `New` returns no wrapper and the error
"GenericFunc.New: fn is not a function", whatever the validator is; the validator
is not consulted. -/
theorem New_not_a_function (fn : Iface) (validateFunc : Validator)
    (h : ∀ f, fn ≠ Iface.func f) :
    New fn validateFunc = .ok (none, some "GenericFunc.New: fn is not a function") := by
  cases fn with
  | nil => rfl
  | data v => rfl
  | func f => exact absurd rfl (h f)

theorem New_not_a_function_witness :
    (∀ f, notAFunction ≠ Iface.func f) ∧
      New notAFunction (readOnly (SimpleParamValidator none (some []))) =
        .ok (none, some "GenericFunc.New: fn is not a function") :=
  ⟨fun _ h => Iface.noConfusion h,
    New_not_a_function notAFunction (readOnly (SimpleParamValidator none (some [])))
      (fun _ h => Iface.noConfusion h)⟩

/-- C4: a non-omitted expected input sequence of length `n` checked against a record
with `m` input types, `n ≠ m`, fails with the input arity error that reports `n` and
`m`, whatever the expected output sequence is. -/
theorem SimpleParamValidator_in_arity (In : List RType) (Out : Option (List RType))
    (cache : FunctionCache) (h : In.length ≠ cache.TypesIn.length) :
    SimpleParamValidator (some In) Out cache =
      .ok (some ("SimpleParamValidator: Number of parameters In expected: " ++
        fmtD In.length ++ ", actual: " ++ fmtD cache.TypesIn.length)) := by
  simp [SimpleParamValidator, h]

theorem SimpleParamValidator_in_arity_witness :
    [some (GoType.basic Basic.int)].length ≠ (signatureOf fnIdxItem).TypesIn.length ∧
      SimpleParamValidator (some [some (GoType.basic Basic.int)]) (some []) (signatureOf fnIdxItem) =
        .ok (some "SimpleParamValidator: Number of parameters In expected: 1, actual: 2") :=
  ⟨by decide,
    SimpleParamValidator_in_arity [some (GoType.basic Basic.int)] (some []) (signatureOf fnIdxItem)
      (by decide)⟩

/-- C10: for a function value, `New` returns a wrapper and no error exactly when
the validator returns no error on the function's signature record, the wrapper then
holding the record as the validator left it, and when the validator returns an error
`New` returns that error unchanged and no wrapper; for a validator that only reads
the record the wrapper holds the signature record itself. -/
theorem New_iff_validator (f : FuncValue) (validateFunc : Validator) :
    ((∃ w, New (.func f) validateFunc = .ok (some w, none)) ↔
        ∃ validated, validateFunc (signatureOf f) = .ok (validated, none)) ∧
      (∀ validated, validateFunc (signatureOf f) = .ok (validated, none) →
        New (.func f) validateFunc = .ok (some ⟨validated⟩, none)) ∧
      (∀ validated err, validateFunc (signatureOf f) = .ok (validated, some err) →
        New (.func f) validateFunc = .ok (none, some err)) ∧
      (∀ check : FunctionCache → Except Fault (Option String),
        ((∃ w, New (.func f) (readOnly check) = .ok (some w, none)) ↔
            check (signatureOf f) = .ok none) ∧
          (check (signatureOf f) = .ok none →
            New (.func f) (readOnly check) = .ok (some ⟨signatureOf f⟩, none)) ∧
          (∀ err, check (signatureOf f) = .ok (some err) →
            New (.func f) (readOnly check) = .ok (none, some err))) := by
  refine ⟨?_, ?_, ?_, ?_⟩
  · rw [New_func]
    cases hv : validateFunc (signatureOf f) with
    | error e => simp
    | ok r =>
      obtain ⟨c, err⟩ := r
      cases err <;> simp
  · intro validated hv
    rw [New_func, hv]
  · intro validated err hv
    rw [New_func, hv]
  · intro check
    rw [New_func, readOnly_eq]
    cases hc : check (signatureOf f) with
    | error e => simp
    | ok err => cases err <;> simp

theorem New_iff_validator_witness :
    SimpleParamValidator (some [some (GoType.basic Basic.int)]) (some []) (signatureOf fnIdxItem) =
        .ok (some "SimpleParamValidator: Number of parameters In expected: 1, actual: 2") ∧
      New (.func fnIdxItem)
          (readOnly (SimpleParamValidator (some [some (GoType.basic Basic.int)]) (some []))) =
        .ok (none, some "SimpleParamValidator: Number of parameters In expected: 1, actual: 2") :=
  ⟨rfl,
    ((New_iff_validator fnIdxItem
      (readOnly (SimpleParamValidator (some [some (GoType.basic Basic.int)]) (some [])))).2.2.2
        (SimpleParamValidator (some [some (GoType.basic Basic.int)]) (some []))).2.2 _ rfl⟩

/-- C5: on `func(x int) {}` checked against the expected input `[bool]`, the
validator does not return the input type-mismatch error for position 0: reading the
type to report from the output types of the record, it faults with an out-of-range
index. -/
theorem SimpleParamValidator_in_mismatch_faults :
    (signatureOf fnOneInt).TypesIn = [some (GoType.basic Basic.int)] ∧
      SimpleParamValidator (some [some (GoType.basic Basic.bool)]) none (signatureOf fnOneInt) =
        .error (Fault.indexOutOfRange 0 0) := by
  constructor <;> rfl

/-- C6: on `func(items ...int) bool` checked against the expected input `[[]bool]`,
the input type at position 0 is `[]int`, and the type the validator reports as actual
is `bool`, the output type at position 0. -/
theorem SimpleParamValidator_in_mismatch_reports_output :
    (signatureOf fnItems).TypesIn = [some (GoType.slice (GoType.basic Basic.int))] ∧
      SimpleParamValidator (some [some (GoType.slice (GoType.basic Basic.bool))])
          (some [some (GoType.basic Basic.bool)]) (signatureOf fnItems) =
        .ok (some
          "SimpleParamValidator: parameter In[0] expected type: []bool, actual type: bool") := by
  constructor <;> rfl

/-! ## Invocation -/

theorem Type_of_runtimeType (x : Iface) (t : DynType) (h : runtimeType x = some t) :
    (ValueOf x).Type = .ok t := by
  cases x with
  | nil => simp [runtimeType] at h
  | data v => simp only [runtimeType, Option.some.injEq] at h; subst h; rfl
  | func f => simp only [runtimeType, Option.some.injEq] at h; subst h; rfl

theorem runtimeType_of_ne_nil (x : Iface) (h : x ≠ Iface.nil) : ∃ t, runtimeType x = some t := by
  cases x with
  | nil => exact absurd rfl h
  | data v => exact ⟨_, rfl⟩
  | func f => exact ⟨_, rfl⟩

theorem checkParams_cons (TypesIn : List RType) (i : Nat) (param : Iface) (rest : List Iface) :
    Call.checkParams TypesIn i (param :: rest) =
      match (ValueOf param).Type with
      | .error e => .error e
      | .ok paramType =>
        match index TypesIn i with
        | .error e => .error e
        | .ok declared =>
          if declared ≠ genericType then
            match paramType.ConvertibleTo declared with
            | .error e => .error e
            | .ok conv =>
              if !conv then .ok (.error (notConvertibleError i paramType declared))
              else
                match Call.checkParams TypesIn (i + 1) rest with
                | .error e => .error e
                | .ok (.error msg) => .ok (.error msg)
                | .ok (.ok paramsIn) => .ok (.ok (ValueOf param :: paramsIn))
          else
            match Call.checkParams TypesIn (i + 1) rest with
            | .error e => .error e
            | .ok (.error msg) => .ok (.error msg)
            | .ok (.ok paramsIn) => .ok (.ok (ValueOf param :: paramsIn)) := rfl

theorem checkParams_first_failure (TypesIn : List RType) :
    ∀ (i k : Nat) (params : List Iface) (t : DynType) (decl : GoType),
      (params[i]?).bind runtimeType = some t →
      TypesIn[k + i]? = some (some decl) →
      some decl ≠ genericType →
      t.ConvertibleTo (some decl) = .ok false →
      (∀ j, j < i → params[j]? ≠ some Iface.nil) →
      (∀ j tj dj, j < i → (params[j]?).bind runtimeType = some tj →
        TypesIn[k + j]? = some (some dj) →
        some dj = genericType ∨ tj.ConvertibleTo (some dj) = .ok true) →
      (∀ j, j < i → ∃ dj, TypesIn[k + j]? = some (some dj)) →
      Call.checkParams TypesIn k params =
        .ok (.error (notConvertibleError (k + i) t (some decl))) := by
  intro i
  induction i with
  | zero =>
    intro k params t decl ht hd hw hc _ _ _
    cases params with
    | nil => simp at ht
    | cons x rest =>
      simp only [List.getElem?_cons_zero, Option.some_bind] at ht
      simp only [Nat.add_zero] at hd
      have hidx : index TypesIn k = .ok (some decl) := (index_ok_iff _ _ _).2 hd
      rw [checkParams_cons, Type_of_runtimeType x t ht, hidx]
      simp [hw, hc]
  | succ i ih =>
    intro k params t decl ht hd hw hc hnn hmin hdecl
    cases params with
    | nil => simp at ht
    | cons x rest =>
      simp only [List.getElem?_cons_succ] at ht
      have hx : x ≠ Iface.nil := by
        intro hx
        exact hnn 0 (Nat.succ_pos i) (by simp [hx])
      obtain ⟨tx, htx⟩ := runtimeType_of_ne_nil x hx
      obtain ⟨d0, hd0⟩ := hdecl 0 (Nat.succ_pos i)
      simp only [Nat.add_zero] at hd0
      have hidx : index TypesIn k = .ok (some d0) := (index_ok_iff _ _ _).2 hd0
      have hrest := ih (k + 1) rest t decl ht
        (by simpa [Nat.add_assoc, Nat.add_comm 1 i] using hd) hw hc
        (fun j hj => by simpa using hnn (j + 1) (Nat.succ_lt_succ hj))
        (fun j tj dj hj h1 h2 => hmin (j + 1) tj dj (Nat.succ_lt_succ hj) (by simpa using h1)
          (by simpa [Nat.add_assoc, Nat.add_comm 1 j] using h2))
        (fun j hj => by
          simpa [Nat.add_assoc, Nat.add_comm 1 j] using hdecl (j + 1) (Nat.succ_lt_succ hj))
      have hk : k + 1 + i = k + (i + 1) := by omega
      rw [checkParams_cons, Type_of_runtimeType x tx htx, hidx, hrest, hk]
      rcases hmin 0 tx d0 (Nat.succ_pos i) (by simpa using htx) (by simpa using hd0) with hg | hcv
      · simp [hg]
      · by_cases hg : some d0 = genericType
        · simp [hg]
        · simp [hg, hcv]

theorem signatureOf_TypesIn_getElem (f : FuncValue) (i : Nat) (decl : GoType)
    (h : f.typ.ins[i]? = some decl) : (signatureOf f).TypesIn[i]? = some (some decl) := by
  simp [signatureOf, List.getElem?_map, h]

theorem signatureOf_TypesIn_of_lt (f : FuncValue) (i : Nat) (h : i < f.typ.ins.length) :
    ∃ d, f.typ.ins[i]? = some d ∧ (signatureOf f).TypesIn[i]? = some (some d) :=
  ⟨f.typ.ins[i], List.getElem?_eq_getElem h,
    signatureOf_TypesIn_getElem f i _ (List.getElem?_eq_getElem h)⟩

theorem Call_of_checkParams_error (d : GenericFunc) (params : List Iface) (msg : String)
    (h : Call.checkParams d.Cache.TypesIn 0 params = .ok (.error msg)) :
    d.Call params = .ok (none, some msg) := by
  simp [GenericFunc.Call, h]

theorem Call_of_checkParams_fault (d : GenericFunc) (params : List Iface) (e : Fault)
    (h : Call.checkParams d.Cache.TypesIn 0 params = .error e) :
    d.Call params = .error e := by
  simp [GenericFunc.Call, h]

/-- When position `i` holds an argument whose run-time type is not convertible to
the declared, non-wildcard parameter type, no argument before position `i` is nil,
and every argument before it is convertible to its declared type or declared as the
wildcard, `Call` returns no results and the error
"GenericFunc.Call: params[i] '<argument type>' is not convertible to '<declared type>'".
The outcome is the same for every function body: the function is not invoked. -/
theorem Call_not_convertible (ft : FuncType)
    (body : List GoValue → Except Fault (List GoValue)) (params : List Iface) (i : Nat)
    (t : DynType) (decl : GoType)
    (ht : (params[i]?).bind runtimeType = some t)
    (hd : ft.ins[i]? = some decl)
    (hw : some decl ≠ genericType)
    (hc : t.ConvertibleTo (some decl) = .ok false)
    (hnn : ∀ j, j < i → params[j]? ≠ some Iface.nil)
    (hmin : ∀ j tj dj, j < i → (params[j]?).bind runtimeType = some tj →
      ft.ins[j]? = some dj → some dj = genericType ∨ tj.ConvertibleTo (some dj) = .ok true) :
    (GenericFunc.mk (signatureOf ⟨ft, body⟩)).Call params =
      .ok (none, some ("GenericFunc.Call: params[" ++ fmtD i ++ "] '" ++ t.String ++
        "' is not convertible to '" ++ decl.String ++ "'")) := by
  have hi : i < ft.ins.length := by
    by_contra hcon
    rw [List.getElem?_eq_none (Nat.le_of_not_lt hcon)] at hd
    exact Option.noConfusion hd
  have key := checkParams_first_failure (signatureOf ⟨ft, body⟩).TypesIn i 0 params t decl ht
    (by simpa using signatureOf_TypesIn_getElem ⟨ft, body⟩ i decl hd) hw hc hnn
    (fun j tj dj hj h1 h2 => by
      obtain ⟨d', hd1, hd2⟩ := signatureOf_TypesIn_of_lt ⟨ft, body⟩ j (Nat.lt_trans hj hi)
      simp only [Nat.zero_add] at h2
      rw [hd2] at h2
      simp only [Option.some.injEq] at h2
      subst h2
      exact hmin j tj d' hj h1 hd1)
    (fun j hj => by
      obtain ⟨d', _, hd2⟩ := signatureOf_TypesIn_of_lt ⟨ft, body⟩ j (Nat.lt_trans hj hi)
      exact ⟨d', by simpa using hd2⟩)
  simp only [Nat.zero_add] at key
  exact Call_of_checkParams_error _ _ _ key

theorem Call_not_convertible_example :
    (GenericFunc.mk (signatureOf fnIdxItem)).Call [three, notAnInt] =
      .ok (none, some "GenericFunc.Call: params[1] 'string' is not convertible to 'int'") :=
  Call_not_convertible fnIdxItem.typ fnIdxItem.body [three, notAnInt] 1
    (.data (.basic .string)) (.basic .int) rfl rfl (by decide) rfl
    (fun j hj => by
      have hj0 : j = 0 := by omega
      subst hj0
      simp [three])
    (fun j tj dj hj h1 h2 => by
      have hj0 : j = 0 := by omega
      subst hj0
      simp only [List.getElem?_cons_zero, Option.some_bind, three, runtimeType,
        Option.some.injEq] at h1
      simp only [fnIdxItem, FuncType.ins, List.append_nil, List.getElem?_cons_zero,
        Option.some.injEq] at h2
      subst h1
      subst h2
      exact Or.inr rfl)

/-- C7: `func(p *int, b int) {}` called with a nil argument and a string. The
lengths agree and position 1 is the only position whose argument has a run-time type
that is not convertible to the declared type, yet `Call` returns no error: it faults
on the nil argument at position 0. -/
theorem Call_nil_before_mismatch_faults :
    [Iface.nil, notAnInt].length = fnPtrInt.typ.NumIn ∧
      runtimeType Iface.nil = none ∧
      runtimeType notAnInt = some (.data (.basic .string)) ∧
      (DynType.data (.basic .string)).ConvertibleTo (some (.basic .int)) = .ok false ∧
      (GenericFunc.mk (signatureOf fnPtrInt)).Call [Iface.nil, notAnInt] =
        .error (Fault.reflectPanic "reflect: call of reflect.Value.Type on zero Value") := by
  refine ⟨rfl, rfl, rfl, rfl, rfl⟩

theorem checkParams_ok_bounds (TypesIn : List RType) :
    ∀ (params : List Iface) (k : Nat) (vs : List Value),
      Call.checkParams TypesIn k params = .ok (.ok vs) →
      vs.length = params.length ∧ ∀ j, j < params.length → k + j < TypesIn.length := by
  intro params
  induction params with
  | nil =>
    intro k vs h
    simp only [Call.checkParams, Except.ok.injEq] at h
    subst h
    simp
  | cons x rest ih =>
    intro k vs h
    rw [checkParams_cons] at h
    cases hT : (ValueOf x).Type with
    | error e => simp [hT] at h
    | ok t =>
      cases hidx : TypesIn[k]? with
      | none =>
        have : index TypesIn k = .error (.indexOutOfRange k TypesIn.length) := by
          unfold index; rw [hidx]
        simp [hT, this] at h
      | some d =>
        have hk : k < TypesIn.length := by
          by_contra hcon
          rw [List.getElem?_eq_none (Nat.le_of_not_lt hcon)] at hidx
          exact Option.noConfusion hidx
        have hi : index TypesIn k = .ok d := (index_ok_iff _ _ _).2 hidx
        have hnext : ∀ ws, (match Call.checkParams TypesIn (k + 1) rest with
            | .error e => (.error e : Except Fault (Except String (List Value)))
            | .ok (.error msg) => .ok (.error msg)
            | .ok (.ok paramsIn) => .ok (.ok (ValueOf x :: paramsIn))) = .ok (.ok ws) →
            ws.length = (x :: rest).length ∧
              ∀ j, j < (x :: rest).length → k + j < TypesIn.length := by
          intro ws hws
          cases hr : Call.checkParams TypesIn (k + 1) rest with
          | error e => simp [hr] at hws
          | ok r =>
            cases r with
            | error msg => simp [hr] at hws
            | ok paramsIn =>
              simp only [hr, Except.ok.injEq] at hws
              subst hws
              obtain ⟨h1, h2⟩ := ih (k + 1) paramsIn hr
              refine ⟨by simp [h1], fun j hj => ?_⟩
              cases j with
              | zero => simpa using hk
              | succ j =>
                have := h2 j (by simpa using hj)
                omega
        simp only [hT, hi] at h
        by_cases hg : d = genericType
        · simp only [hg, ne_eq, not_true_eq_false, if_false] at h
          exact hnext vs h
        · simp only [ne_eq, hg, not_false_eq_true, if_true] at h
          cases hc : t.ConvertibleTo d with
          | error e => simp [hc] at h
          | ok conv =>
            cases conv with
            | false => simp [hc] at h
            | true =>
              simp only [hc, Bool.not_true, Bool.false_eq_true, if_false] at h
              exact hnext vs h

theorem checkParams_error_form (TypesIn : List RType) :
    ∀ (params : List Iface) (k : Nat) (msg : String),
      Call.checkParams TypesIn k params = .ok (.error msg) →
      ∃ j t d, j < params.length ∧ (params[j]?).bind runtimeType = some t ∧
        TypesIn[k + j]? = some d ∧ msg = notConvertibleError (k + j) t d := by
  intro params
  induction params with
  | nil =>
    intro k msg h
    simp [Call.checkParams] at h
  | cons x rest ih =>
    intro k msg h
    rw [checkParams_cons] at h
    cases hT : (ValueOf x).Type with
    | error e => simp [hT] at h
    | ok t =>
      have hrt : runtimeType x = some t := by
        cases x with
        | nil => simp [ValueOf, Value.Type] at hT
        | data v => simp only [ValueOf, Value.Type, Except.ok.injEq] at hT; subst hT; rfl
        | func f => simp only [ValueOf, Value.Type, Except.ok.injEq] at hT; subst hT; rfl
      cases hidx : TypesIn[k]? with
      | none =>
        have : index TypesIn k = .error (.indexOutOfRange k TypesIn.length) := by
          unfold index; rw [hidx]
        simp [hT, this] at h
      | some d =>
        have hi : index TypesIn k = .ok d := (index_ok_iff _ _ _).2 hidx
        have hnext : (match Call.checkParams TypesIn (k + 1) rest with
            | .error e => (.error e : Except Fault (Except String (List Value)))
            | .ok (.error msg) => .ok (.error msg)
            | .ok (.ok paramsIn) => .ok (.ok (ValueOf x :: paramsIn))) = .ok (.error msg) →
            ∃ j t d, j < (x :: rest).length ∧ ((x :: rest)[j]?).bind runtimeType = some t ∧
              TypesIn[k + j]? = some d ∧ msg = notConvertibleError (k + j) t d := by
          intro hws
          cases hr : Call.checkParams TypesIn (k + 1) rest with
          | error e => simp [hr] at hws
          | ok r =>
            cases r with
            | ok paramsIn => simp [hr] at hws
            | error m =>
              simp only [hr, Except.ok.injEq, Except.error.injEq] at hws
              subst hws
              obtain ⟨j, tj, dj, h1, h2, h3, h4⟩ := ih (k + 1) m hr
              refine ⟨j + 1, tj, dj, by simpa using h1, by simpa using h2, ?_, ?_⟩
              · simpa [Nat.add_assoc, Nat.add_comm 1 j] using h3
              · simpa [Nat.add_assoc, Nat.add_comm 1 j] using h4
        simp only [hT, hi] at h
        by_cases hg : d = genericType
        · simp only [hg, ne_eq, not_true_eq_false, if_false] at h
          exact hnext h
        · simp only [ne_eq, hg, not_false_eq_true, if_true] at h
          cases hc : t.ConvertibleTo d with
          | error e => simp [hc] at h
          | ok conv =>
            cases conv with
            | false =>
              simp only [hc, Bool.not_false, if_true, Except.ok.injEq,
                Except.error.injEq] at h
              exact ⟨0, t, d, by simp, by simpa using hrt, by simpa using hidx, by simpa using h.symm⟩
            | true =>
              simp only [hc, Bool.not_true, Bool.false_eq_true, if_false] at h
              exact hnext h

/-- The amended C8: with more arguments than declared input types, or with fewer
arguments for a function that is not variadic, `Call` returns neither results nor an
arity-mismatch error: it faults, or it returns the not-convertible error of one of
the supplied arguments. -/
theorem Call_length_mismatch (f : FuncValue) (params : List Iface)
    (h : f.typ.NumIn < params.length ∨
      (params.length < f.typ.NumIn ∧ f.typ.variadic = none)) :
    (∃ e, (GenericFunc.mk (signatureOf f)).Call params = .error e) ∨
      (∃ j t decl, j < params.length ∧ (params[j]?).bind runtimeType = some t ∧
        f.typ.ins[j]? = some decl ∧
        (GenericFunc.mk (signatureOf f)).Call params =
          .ok (none, some (notConvertibleError j t (some decl)))) := by
  have hlenT : (signatureOf f).TypesIn.length = f.typ.NumIn := by
    simp [signatureOf, FuncType.NumIn]
  cases hr : Call.checkParams (signatureOf f).TypesIn 0 params with
  | error e => exact Or.inl ⟨e, Call_of_checkParams_fault ⟨signatureOf f⟩ params e hr⟩
  | ok r =>
    cases r with
    | error msg =>
      right
      obtain ⟨j, t, d, h1, h2, h3, h4⟩ := checkParams_error_form _ params 0 msg hr
      simp only [Nat.zero_add] at h3 h4
      have hd : ∃ decl, f.typ.ins[j]? = some decl ∧ d = some decl := by
        simp only [signatureOf, List.getElem?_map] at h3
        cases hj : f.typ.ins[j]? with
        | none => simp [hj] at h3
        | some decl => exact ⟨decl, rfl, by simpa [hj] using h3.symm⟩
      obtain ⟨decl, hd1, hd2⟩ := hd
      subst hd2
      subst h4
      exact ⟨j, t, decl, h1, h2, hd1, Call_of_checkParams_error ⟨signatureOf f⟩ params _ hr⟩
    | ok vs =>
      obtain ⟨hl, hb⟩ := checkParams_ok_bounds _ params 0 vs hr
      rcases h with hmany | ⟨hfew, hnv⟩
      · have := hb f.typ.NumIn hmany
        rw [hlenT] at this
        omega
      · left
        have hn : f.typ.NumIn = f.typ.params.length := by
          simp [FuncType.NumIn, FuncType.ins, hnv]
        have hlt : vs.length < f.typ.params.length := by omega
        refine ⟨.reflectPanic "reflect: Call with too few input arguments", ?_⟩
        have hcall : (signatureOf f).FnValue.Call vs =
            .error (.reflectPanic "reflect: Call with too few input arguments") := by
          simp [signatureOf, Value.Call, FuncValue.Call, hlt]
        simp only [GenericFunc.Call, hr, hcall]

theorem Call_length_mismatch_witness :
    (fnTimes3.typ.NumIn < [three, three].length ∨
        ([three, three].length < fnTimes3.typ.NumIn ∧ fnTimes3.typ.variadic = none)) ∧
      ((∃ e, (GenericFunc.mk (signatureOf fnTimes3)).Call [three, three] = .error e) ∨
        (∃ j t decl, j < [three, three].length ∧
          ([three, three][j]?).bind runtimeType = some t ∧
          fnTimes3.typ.ins[j]? = some decl ∧
          (GenericFunc.mk (signatureOf fnTimes3)).Call [three, three] =
            .ok (none, some (notConvertibleError j t (some decl))))) :=
  ⟨Or.inl (by decide), Call_length_mismatch fnTimes3 [three, three] (Or.inl (by decide))⟩

/-- C8 as stated fails: the wrapper of `func(i int) int` called with two arguments
faults with an out-of-range index, and called with no argument faults inside the
reflective call; neither call returns an error. -/
theorem Call_wrong_arity_faults :
    (GenericFunc.mk (signatureOf fnTimes3)).Call [three, three] =
        .error (Fault.indexOutOfRange 1 1) ∧
      (GenericFunc.mk (signatureOf fnTimes3)).Call [] =
        .error (Fault.reflectPanic "reflect: Call with too few input arguments") := by
  constructor <;> rfl

/-- C2: `func(items ...int) bool { return false }` passes the validator built from
`[]int` and `bool`, `New` returns its wrapper, and applied directly to the slice
`[]int{1, 2}` the function returns `false`; `Call` with that slice, whose type is
exactly the declared parameter type, faults inside the reflective call. -/
theorem Call_variadic_faults :
    New (.func fnItems)
        (readOnly (SimpleParamValidator (some [some (.slice (.basic .int))])
          (some [some (.basic .bool)]))) =
        .ok (some ⟨signatureOf fnItems⟩, none) ∧
      [Iface.data intSlice12].length = fnItems.typ.NumIn ∧
      fnItems.typ.ins = [intSlice12.typ] ∧
      fnItems.body [intSlice12] = .ok [⟨.basic .bool, .bool false⟩] ∧
      (GenericFunc.mk (signatureOf fnItems)).Call [Iface.data intSlice12] =
        .error (Fault.reflectPanic "reflect: cannot use []int as type int in Call") := by
  refine ⟨rfl, rfl, rfl, rfl, rfl⟩

/-- C9: for `func(i int) int { return i * 3 }` the argument `int64(3)` has a type
convertible to, and not identical with, the declared type `int`; it passes the check
of `Call`, is handed to the reflective call unconverted, and the call faults. -/
theorem Call_convertible_not_identical_faults :
    (DynType.data (.basic .int64)).ConvertibleTo (some (.basic .int)) = .ok true ∧
      Call.checkParams (signatureOf fnTimes3).TypesIn 0 [three64] = .ok (.ok [ValueOf three64]) ∧
      (GenericFunc.mk (signatureOf fnTimes3)).Call [three64] =
        .error (Fault.reflectPanic "reflect: Call using int64 as type int") := by
  refine ⟨rfl, rfl, rfl⟩

theorem convertOp_self (d : GoType) : convertOp d d = true := by
  simp [convertOp, haveIdenticalUnderlyingType]

theorem directlyAssignable_self (d : GoType) : directlyAssignable d d = true := by
  simp [directlyAssignable]

theorem checkParams_all_pass (TypesIn : List RType) :
    ∀ (params : List Iface) (k : Nat),
      (∀ j, j < params.length → ∃ t d, (params[j]?).bind runtimeType = some t ∧
        TypesIn[k + j]? = some (some d) ∧
        (some d = genericType ∨ t.ConvertibleTo (some d) = .ok true)) →
      Call.checkParams TypesIn k params = .ok (.ok (params.map ValueOf)) := by
  intro params
  induction params with
  | nil => intro k _; rfl
  | cons x rest ih =>
    intro k h
    obtain ⟨t, d, h1, h2, h3⟩ := h 0 (by simp)
    simp only [List.getElem?_cons_zero, Option.some_bind, Nat.add_zero] at h1 h2
    have hrest := ih (k + 1) (fun j hj => by
      obtain ⟨tj, dj, g1, g2, g3⟩ := h (j + 1) (by simpa using hj)
      exact ⟨tj, dj, by simpa using g1, by simpa [Nat.add_assoc, Nat.add_comm 1 j] using g2, g3⟩)
    have hidx : index TypesIn k = .ok (some d) := (index_ok_iff _ _ _).2 h2
    rw [checkParams_cons, Type_of_runtimeType x t h1, hidx, hrest]
    rcases h3 with hg | hcv
    · simp [hg]
    · by_cases hg : some d = genericType
      · simp [hg]
      · simp [hg, hcv]

theorem assignArgs_exact (vals : List GoValue) :
    assignArgs (vals.map Value.data) (vals.map GoValue.typ) = .ok vals := by
  induction vals with
  | nil => rfl
  | cons v vs ih =>
    simp [assignArgs, assignArg, DynType.AssignableTo, directlyAssignable_self, ih]

theorem box_data (out : List GoValue) :
    Call.box (out.map Value.data) = .ok (out.map Iface.data) := by
  induction out with
  | nil => rfl
  | cons v vs ih => simp [Call.box, Value.Interface, ih]

/-- For a function that is not variadic, `Call` with one argument per parameter,
each of exactly the declared type, returns what the function body returns on those
arguments, boxed in declaration order, and propagates its panic. -/
theorem Call_exact_nonvariadic (f : FuncValue) (hnv : f.typ.variadic = none)
    (vals : List GoValue) (ht : vals.map GoValue.typ = f.typ.params) :
    (GenericFunc.mk (signatureOf f)).Call (vals.map Iface.data) =
      match f.body vals with
      | .error e => .error e
      | .ok out => .ok (some (out.map Iface.data), none) := by
  have hins : f.typ.ins = f.typ.params := by simp [FuncType.ins, hnv]
  have hlen : vals.length = f.typ.params.length := by rw [← ht]; simp
  have hcheck : Call.checkParams (signatureOf f).TypesIn 0 (vals.map Iface.data) =
      .ok (.ok ((vals.map Iface.data).map ValueOf)) := by
    apply checkParams_all_pass
    intro j hj
    simp only [List.length_map] at hj
    refine ⟨.data (vals[j]).typ, (vals[j]).typ, ?_, ?_, Or.inr ?_⟩
    · simp [List.getElem?_map, List.getElem?_eq_getElem hj, runtimeType]
    · simp [signatureOf, hins, ← ht, List.getElem?_map, List.getElem?_eq_getElem hj]
    · simp [DynType.ConvertibleTo, convertOp_self]
  have hmap : (vals.map Iface.data).map ValueOf = vals.map Value.data := by
    simp [List.map_map, Function.comp_def, ValueOf]
  have hvar : f.typ.IsVariadic = false := by simp [FuncType.IsVariadic, hnv]
  have hvalid : ∀ x ∈ vals.map Value.data, ¬ x.Kind = Kind.Invalid := by
    intro x hx
    simp only [List.mem_map] at hx
    obtain ⟨v, _, rfl⟩ := hx
    simp only [Value.Kind]
    induction v.typ with
    | basic b => simp [GoType.Kind]
    | named n u ih => simpa [GoType.Kind] using ih
    | slice e _ => simp [GoType.Kind]
    | ptr e _ => simp [GoType.Kind]
  have hcall : (signatureOf f).FnValue.Call (vals.map Value.data) =
      match f.body vals with
      | .error e => .error e
      | .ok out => .ok (out.map Value.data) := by
    have htake : List.take f.typ.params.length (vals.map Value.data) = vals.map Value.data := by
      apply List.take_of_length_le; simp [hlen]
    have hany : (vals.map Value.data).any (fun x => decide (x.Kind = Kind.Invalid)) = false := by
      rw [List.any_eq_false]
      intro x hx
      simpa using hvalid x hx
    simp only [signatureOf, Value.Call, FuncValue.Call, List.length_map, hlen, Nat.lt_irrefl,
      if_false, hvar, gt_iff_lt, decide_False, Bool.and_false, Bool.false_eq_true, hany, htake]
    rw [← ht, assignArgs_exact, ht]
    simp only [hnv]
  simp only [GenericFunc.Call, hcheck, hmap, hcall]
  cases hb : f.body vals with
  | error e => rfl
  | ok out => simp [box_data]

/-! ## Order of the validator's checks -/

theorem inSide_eq (In : Option (List RType)) (cache : FunctionCache) :
    SimpleParamValidator In none cache =
      match In with
      | none => .ok none
      | some ins =>
        if ins.length ≠ cache.TypesIn.length then
          .ok (some ("SimpleParamValidator: Number of parameters In expected: " ++
            fmtD ins.length ++ ", actual: " ++ fmtD cache.TypesIn.length))
        else SimpleParamValidator.checkIn cache 0 ins := by
  cases In with
  | none => rfl
  | some ins =>
    simp only [SimpleParamValidator, SimpleParamValidator.outSide]
    split
    · rfl
    · cases h : SimpleParamValidator.checkIn cache 0 ins with
      | error e => rfl
      | ok r => cases r <;> rfl

theorem inSide_ok_iff (In : Option (List RType)) (cache : FunctionCache) :
    SimpleParamValidator In none cache = .ok none ↔ sidePasses In cache.TypesIn := by
  rw [inSide_eq]
  cases In with
  | none => simp [sidePasses]
  | some ins =>
    by_cases hlen : ins.length = cache.TypesIn.length
    · have hin := checkIn_ok_iff cache ins 0
      simp only [Nat.zero_add] at hin
      simp only [ne_eq, hlen, not_true_eq_false, if_false, sidePasses, positionsMatch, true_and]
      rw [← hlen]
      exact hin
    · simp [hlen, sidePasses]

theorem validator_of_inSide_ok (In Out : Option (List RType)) (cache : FunctionCache)
    (h : SimpleParamValidator In none cache = .ok none) :
    SimpleParamValidator In Out cache = SimpleParamValidator.outSide Out cache := by
  rw [inSide_eq] at h
  cases In with
  | none => rfl
  | some ins =>
    by_cases hlen : ins.length = cache.TypesIn.length
    · simp only [ne_eq, hlen, not_true_eq_false, if_false] at h
      simp [SimpleParamValidator, hlen, h]
    · simp [hlen] at h

theorem validator_of_inSide_fails (In Out : Option (List RType)) (cache : FunctionCache)
    (h : SimpleParamValidator In none cache ≠ .ok none) :
    SimpleParamValidator In Out cache = SimpleParamValidator In none cache := by
  rw [inSide_eq] at h ⊢
  cases In with
  | none => exact absurd rfl h
  | some ins =>
    by_cases hlen : ins.length = cache.TypesIn.length
    · simp only [ne_eq, hlen, not_true_eq_false, if_false] at h ⊢
      simp only [SimpleParamValidator, ne_eq, hlen, not_true_eq_false, if_false]
      cases hc : SimpleParamValidator.checkIn cache 0 ins with
      | error e => rfl
      | ok r =>
        cases r with
        | none => exact absurd hc h
        | some err => rfl
    · simp [SimpleParamValidator, hlen]

/-- C11: when the input side passes or is omitted, a non-omitted expected output
sequence of length `n` checked against a record with `m` output types, `n ≠ m`, fails
with the output arity error that reports `n` and `m`; in particular the explicitly
empty sequence rejects every record that has an output type. -/
theorem SimpleParamValidator_out_arity (In : Option (List RType)) (Out : List RType)
    (cache : FunctionCache) (hin : sidePasses In cache.TypesIn) :
    (Out.length ≠ cache.TypesOut.length →
      SimpleParamValidator In (some Out) cache =
        .ok (some ("SimpleParamValidator: Number of parameters Out expected: " ++
          fmtD Out.length ++ ", actual: " ++ fmtD cache.TypesOut.length))) ∧
    (cache.TypesOut ≠ [] →
      SimpleParamValidator In (some []) cache =
        .ok (some ("SimpleParamValidator: Number of parameters Out expected: " ++
          fmtD 0 ++ ", actual: " ++ fmtD cache.TypesOut.length))) := by
  have hside := fun Out2 => validator_of_inSide_ok In Out2 cache ((inSide_ok_iff In cache).2 hin)
  constructor
  · intro hlen
    rw [hside]
    simp [SimpleParamValidator.outSide, hlen]
  · intro hne
    rw [hside]
    have : ¬ 0 = cache.TypesOut.length := by
      intro h0
      exact hne (List.length_eq_zero.1 h0.symm)
    simp [SimpleParamValidator.outSide, this]

theorem SimpleParamValidator_out_arity_witness :
    sidePasses (some [some (GoType.basic Basic.int)]) (signatureOf fnItemGt10).TypesIn ∧
      (signatureOf fnItemGt10).TypesOut ≠ [] ∧
      SimpleParamValidator (some [some (GoType.basic Basic.int)]) (some [])
          (signatureOf fnItemGt10) =
        .ok (some "SimpleParamValidator: Number of parameters Out expected: 0, actual: 1") :=
  have hin : sidePasses (some [some (GoType.basic Basic.int)])
      (signatureOf fnItemGt10).TypesIn := by
    refine ⟨rfl, fun i hi => ?_⟩
    have hi0 : i = 0 := by simpa using hi
    subst hi0
    exact Or.inr rfl
  ⟨hin, by decide,
    (SimpleParamValidator_out_arity (some [some (GoType.basic Basic.int)]) []
      (signatureOf fnItemGt10) hin).2 (by decide)⟩

/-- C17: the input checks come first and stop the validator. When the validator
with the output side omitted does not succeed, the validator with any expected output
gives that same outcome; an input arity mismatch gives the arity error whatever the
expected types are; when the input checks succeed, the input side passes and the
outcome is that of the output checks alone; and among the output checks an arity
mismatch gives the output arity error whatever the expected types are. -/
theorem SimpleParamValidator_order (In Out : Option (List RType)) (cache : FunctionCache) :
    (SimpleParamValidator In none cache ≠ .ok none →
      SimpleParamValidator In Out cache = SimpleParamValidator In none cache) ∧
    (∀ ins, In = some ins → ins.length ≠ cache.TypesIn.length →
      SimpleParamValidator In Out cache =
        .ok (some ("SimpleParamValidator: Number of parameters In expected: " ++
          fmtD ins.length ++ ", actual: " ++ fmtD cache.TypesIn.length))) ∧
    (SimpleParamValidator In none cache = .ok none →
      sidePasses In cache.TypesIn ∧
        SimpleParamValidator In Out cache = SimpleParamValidator.outSide Out cache) ∧
    (∀ outs, Out = some outs → outs.length ≠ cache.TypesOut.length →
      SimpleParamValidator.outSide Out cache =
        .ok (some ("SimpleParamValidator: Number of parameters Out expected: " ++
          fmtD outs.length ++ ", actual: " ++ fmtD cache.TypesOut.length))) := by
  refine ⟨validator_of_inSide_fails In Out cache, ?_, fun h => ?_, ?_⟩
  · intro ins hIn hlen
    subst hIn
    simp [SimpleParamValidator, hlen]
  · exact ⟨(inSide_ok_iff In cache).1 h, validator_of_inSide_ok In Out cache h⟩
  · intro outs hOut hlen
    subst hOut
    simp [SimpleParamValidator.outSide, hlen]

theorem inSide_two_bools :
    SimpleParamValidator (some [some (GoType.basic Basic.bool), some (GoType.basic Basic.bool)])
        none (signatureOf fnItemGt10) ≠ .ok none := by
  intro h
  have e : SimpleParamValidator
      (some [some (GoType.basic Basic.bool), some (GoType.basic Basic.bool)])
      none (signatureOf fnItemGt10) =
      .ok (some "SimpleParamValidator: Number of parameters In expected: 2, actual: 1") := rfl
  rw [e] at h
  simp at h

theorem SimpleParamValidator_order_witness :
    SimpleParamValidator (some [some (GoType.basic Basic.bool), some (GoType.basic Basic.bool)])
        none (signatureOf fnItemGt10) ≠ .ok none ∧
      SimpleParamValidator (some [some (GoType.basic Basic.bool), some (GoType.basic Basic.bool)])
          (some []) (signatureOf fnItemGt10) =
        .ok (some "SimpleParamValidator: Number of parameters In expected: 2, actual: 1") :=
  ⟨inSide_two_bools,
    (SimpleParamValidator_order
      (some [some (GoType.basic Basic.bool), some (GoType.basic Basic.bool)]) (some [])
      (signatureOf fnItemGt10)).1 inSide_two_bools⟩

/-- C12: on `func() []int` checked against the expected output `[bool]` the
output type at position 0 is `[]int`, and the validator reports as actual type its
kind, `slice`; on `func() GenericType` checked against `[int]` it reports `int`, the
type it expected; and with the zero descriptor as expected type it faults on a nil
dereference instead of returning an error. -/
theorem SimpleParamValidator_out_mismatch_reports_kind :
    (signatureOf fnIntSlice).TypesOut = [some (GoType.slice (GoType.basic Basic.int))] ∧
      SimpleParamValidator none (some [some (GoType.basic Basic.bool)]) (signatureOf fnIntSlice) =
        .ok (some
          "SimpleParamValidator: parameter Out[0] expected type: bool, actual type: slice") ∧
      SimpleParamValidator none (some [some (GoType.basic Basic.int)])
          (signatureOf fnGenericResult) =
        .ok (some
          "SimpleParamValidator: parameter Out[0] expected type: int, actual type: int") ∧
      SimpleParamValidator none (some [none]) (signatureOf fnIntSlice) =
        .error Fault.nilDereference := by
  refine ⟨rfl, rfl, rfl, rfl⟩

/-- C16: on `func(idx, item int) {}`, which has two parameters and no return value,
checked against the expected input `[int, bool]`, the lengths agree and the validator
reads position 1 of the empty sequence of output types: it faults with an out-of-range
index and returns neither success nor an error. -/
theorem SimpleParamValidator_reads_out_of_range :
    [some (GoType.basic Basic.int), some (GoType.basic Basic.bool)].length =
        (signatureOf fnIdxItem).TypesIn.length ∧
      (signatureOf fnIdxItem).TypesOut = [] ∧
      SimpleParamValidator (some [some (GoType.basic Basic.int), some (GoType.basic Basic.bool)])
          none (signatureOf fnIdxItem) =
        .error (Fault.indexOutOfRange 1 0) := by
  refine ⟨rfl, rfl, rfl⟩

/-! ## The signature record of a wrapper -/

/-- The amended C13: for a function value accepted by `New` with a validator that
leaves the record as it was given, `TypesIn` has one entry per parameter, entry `i`
being the `i`-th declared parameter type and a variadic parameter `...T` being the
single last entry `[]T`, and `TypesOut` has one entry per result, entry `i` being the
`i`-th declared result type. -/
theorem New_signature (f : FuncValue) (validateFunc : Validator) (w : GenericFunc)
    (hro : leavesRecord validateFunc)
    (h : New (.func f) validateFunc = .ok (some w, none)) :
    w.Cache.TypesIn.length = f.typ.NumIn ∧
      (∀ i t, f.typ.In i = .ok t → w.Cache.TypesIn[i]? = some (some t)) ∧
      (∀ (i : Nat) (t : GoType), f.typ.params[i]? = some t →
        w.Cache.TypesIn[i]? = some (some t)) ∧
      (f.typ.variadic = none → w.Cache.TypesIn.length = f.typ.params.length) ∧
      (∀ T, f.typ.variadic = some T →
        w.Cache.TypesIn = f.typ.params.map some ++ [some (GoType.slice T)]) ∧
      w.Cache.TypesOut.length = f.typ.NumOut ∧
      (∀ i t, f.typ.Out i = .ok t → w.Cache.TypesOut[i]? = some (some t)) ∧
      (∀ (i : Nat) (t : GoType), f.typ.results[i]? = some t →
        w.Cache.TypesOut[i]? = some (some t)) := by
  have hw := New_ok_wrapper f validateFunc w hro h
  subst hw
  refine ⟨?_, ?_, ?_, ?_, ?_, ?_, ?_, ?_⟩
  · simp [signatureOf, FuncType.NumIn]
  · intro i t hi
    unfold FuncType.In at hi
    cases hg : f.typ.ins[i]? with
    | none => simp [hg] at hi
    | some t2 =>
      simp only [hg, Except.ok.injEq] at hi
      subst hi
      simp [signatureOf, List.getElem?_map, hg]
  · intro i t hi
    have hlt : i < f.typ.params.length := by
      by_contra hcon
      rw [List.getElem?_eq_none (Nat.le_of_not_lt hcon)] at hi
      exact Option.noConfusion hi
    have hlt2 : i < (List.map some f.typ.params).length := by simpa using hlt
    simp only [signatureOf, FuncType.ins, List.map_append]
    rw [List.getElem?_append_left hlt2]
    simp [List.getElem?_map, hi]
  · intro hnv
    simp [signatureOf, FuncType.ins, hnv]
  · intro T hT
    simp [signatureOf, FuncType.ins, hT]
  · simp [signatureOf, FuncType.NumOut]
  · intro i t hi
    unfold FuncType.Out at hi
    cases hg : f.typ.results[i]? with
    | none => simp [hg] at hi
    | some t2 =>
      simp only [hg, Except.ok.injEq] at hi
      subst hi
      simp [signatureOf, List.getElem?_map, hg]
  · intro i t hi
    simp [signatureOf, List.getElem?_map, hi]

theorem New_signature_witness :
    leavesRecord (readOnly (SimpleParamValidator (some [some (.slice (.basic .int))])
        (some [some (.basic .bool)]))) ∧
      New (.func fnItems)
        (readOnly (SimpleParamValidator (some [some (.slice (.basic .int))])
          (some [some (.basic .bool)]))) =
        .ok (some ⟨signatureOf fnItems⟩, none) ∧
      (GenericFunc.mk (signatureOf fnItems)).Cache.TypesIn =
        List.map some [] ++ [some (GoType.slice (GoType.basic Basic.int))] :=
  ⟨readOnly_leavesRecord _, rfl,
    (New_signature fnItems
      (readOnly (SimpleParamValidator (some [some (.slice (.basic .int))])
        (some [some (.basic .bool)])))
      ⟨signatureOf fnItems⟩ (readOnly_leavesRecord _) rfl).2.2.2.2.1 (GoType.basic Basic.int) rfl⟩

/-- C13 as stated fails: the validator that empties both type sequences of the
record and returns nil accepts `func(i int) int`, and the wrapper `New` returns has
no entry in `TypesIn` and none in `TypesOut`, for one parameter and one result. -/
theorem New_record_rewritten_by_validator :
    New (.func fnTimes3) clearingValidator =
        .ok (some ⟨⟨Value.func fnTimes3, some fnTimes3.typ, [], []⟩⟩, none) ∧
      fnTimes3.typ.NumIn = 1 ∧ fnTimes3.typ.NumOut = 1 ∧
      fnTimes3.typ.In 0 = .ok (GoType.basic Basic.int) ∧
      (GenericFunc.mk ⟨Value.func fnTimes3, some fnTimes3.typ, [], []⟩).Cache.TypesIn.length = 0 ∧
      (GenericFunc.mk ⟨Value.func fnTimes3, some fnTimes3.typ, [], []⟩).Cache.TypesIn[0]? =
        none := by
  refine ⟨rfl, rfl, rfl, rfl, rfl, rfl⟩

theorem checkParams_ok_convertible (TypesIn : List RType) :
    ∀ (params : List Iface) (k : Nat) (vs : List Value),
      Call.checkParams TypesIn k params = .ok (.ok vs) →
      ∀ j, j < params.length → ∃ t d, (params[j]?).bind runtimeType = some t ∧
        TypesIn[k + j]? = some d ∧ (d = genericType ∨ t.ConvertibleTo d = .ok true) := by
  intro params
  induction params with
  | nil =>
    intro k vs _ j hj
    simp at hj
  | cons x rest ih =>
    intro k vs h
    rw [checkParams_cons] at h
    cases hT : (ValueOf x).Type with
    | error e => simp [hT] at h
    | ok t =>
      have hrt : runtimeType x = some t := by
        cases x with
        | nil => simp [ValueOf, Value.Type] at hT
        | data v => simp only [ValueOf, Value.Type, Except.ok.injEq] at hT; subst hT; rfl
        | func f => simp only [ValueOf, Value.Type, Except.ok.injEq] at hT; subst hT; rfl
      cases hidx : TypesIn[k]? with
      | none =>
        have : index TypesIn k = .error (.indexOutOfRange k TypesIn.length) := by
          unfold index; rw [hidx]
        simp [hT, this] at h
      | some d =>
        have hi : index TypesIn k = .ok d := (index_ok_iff _ _ _).2 hidx
        have hnext : (d = genericType ∨ t.ConvertibleTo d = .ok true) →
            (match Call.checkParams TypesIn (k + 1) rest with
            | .error e => (.error e : Except Fault (Except String (List Value)))
            | .ok (.error msg) => .ok (.error msg)
            | .ok (.ok paramsIn) => .ok (.ok (ValueOf x :: paramsIn))) = .ok (.ok vs) →
            ∀ j, j < (x :: rest).length → ∃ t d, ((x :: rest)[j]?).bind runtimeType = some t ∧
              TypesIn[k + j]? = some d ∧ (d = genericType ∨ t.ConvertibleTo d = .ok true) := by
          intro hhead hws
          cases hr : Call.checkParams TypesIn (k + 1) rest with
          | error e => simp [hr] at hws
          | ok r =>
            cases r with
            | error msg => simp [hr] at hws
            | ok paramsIn =>
              intro j hj
              cases j with
              | zero => exact ⟨t, d, by simpa using hrt, by simpa using hidx, hhead⟩
              | succ j =>
                obtain ⟨tj, dj, g1, g2, g3⟩ := ih (k + 1) paramsIn hr j (by simpa using hj)
                exact ⟨tj, dj, by simpa using g1,
                  by simpa [Nat.add_assoc, Nat.add_comm 1 j] using g2, g3⟩
        simp only [hT, hi] at h
        by_cases hg : d = genericType
        · simp only [hg, ne_eq, not_true_eq_false, if_false] at h
          exact hnext (Or.inl hg) h
        · simp only [ne_eq, hg, not_false_eq_true, if_true] at h
          cases hc : t.ConvertibleTo d with
          | error e => simp [hc] at h
          | ok conv =>
            cases conv with
            | false => simp [hc] at h
            | true =>
              simp only [hc, Bool.not_true, Bool.false_eq_true, if_false] at h
              exact hnext (Or.inr hc) h

theorem not_generic_of_not_mem (l : List GoType) (hn : GenericType ∉ l) (i : Nat) (d : GoType)
    (hd : l[i]? = some d) : some d ≠ genericType := by
  intro hEq
  simp only [genericType, Option.some.injEq] at hEq
  subst hEq
  exact hn (List.getElem?_mem hd)

/-- The amended C15: for a function value accepted by `New` with a validator that
leaves the record as it was given, an entry of `TypesIn` or `TypesOut` is the wildcard
marker exactly where the function declares a parameter or a result of type
`GenericType`. When no declared parameter has that type, no entry of `TypesIn` is the
marker and the wildcard test of `Call` is satisfied at no position: the check loop of
`Call` completes only if every argument has a type convertible to its declared type,
and the first argument whose type is not convertible, with no nil argument before
it, makes `Call` return the not-convertible error. -/
theorem New_wildcard_entries (f : FuncValue) (validateFunc : Validator) (w : GenericFunc)
    (hro : leavesRecord validateFunc)
    (h : New (.func f) validateFunc = .ok (some w, none)) :
    (∀ i : Nat, w.Cache.TypesIn[i]? = some genericType ↔ f.typ.ins[i]? = some GenericType) ∧
      (∀ i : Nat,
        w.Cache.TypesOut[i]? = some genericType ↔ f.typ.results[i]? = some GenericType) ∧
      (GenericType ∉ f.typ.results → genericType ∉ w.Cache.TypesOut) ∧
      (GenericType ∉ f.typ.ins →
        genericType ∉ w.Cache.TypesIn ∧
        (∀ (params : List Iface) (paramsIn : List Value),
          Call.checkParams w.Cache.TypesIn 0 params = .ok (.ok paramsIn) →
          ∀ j, j < params.length → ∃ t d, (params[j]?).bind runtimeType = some t ∧
            f.typ.ins[j]? = some d ∧ t.ConvertibleTo (some d) = .ok true) ∧
        (∀ (params : List Iface) (i : Nat) (t : DynType) (decl : GoType),
          (params[i]?).bind runtimeType = some t →
          f.typ.ins[i]? = some decl →
          t.ConvertibleTo (some decl) = .ok false →
          (∀ j, j < i → params[j]? ≠ some Iface.nil) →
          (∀ j tj dj, j < i → (params[j]?).bind runtimeType = some tj →
            f.typ.ins[j]? = some dj → tj.ConvertibleTo (some dj) = .ok true) →
          w.Call params = .ok (none, some (notConvertibleError i t (some decl))))) := by
  have hw := New_ok_wrapper f validateFunc w hro h
  subst hw
  refine ⟨?_, ?_, ?_, ?_⟩
  · intro i
    simp only [signatureOf, List.getElem?_map, genericType, GenericType]
    cases f.typ.ins[i]? <;> simp
  · intro i
    simp only [signatureOf, List.getElem?_map, genericType, GenericType]
    cases f.typ.results[i]? <;> simp
  · intro hn hmem
    simp only [signatureOf, List.mem_map, genericType] at hmem
    obtain ⟨t, ht, hEq⟩ := hmem
    simp only [Option.some.injEq] at hEq
    subst hEq
    exact hn ht
  · intro hn
    refine ⟨?_, ?_, ?_⟩
    · intro hmem
      simp only [signatureOf, List.mem_map, genericType] at hmem
      obtain ⟨t, ht, hEq⟩ := hmem
      simp only [Option.some.injEq] at hEq
      subst hEq
      exact hn ht
    · intro params paramsIn hcheck j hj
      obtain ⟨t, d, h1, h2, h3⟩ :=
        checkParams_ok_convertible _ params 0 paramsIn hcheck j hj
      simp only [Nat.zero_add, signatureOf, List.getElem?_map] at h2
      cases hd : f.typ.ins[j]? with
      | none => simp [hd] at h2
      | some decl =>
        simp only [hd, Option.map_some', Option.some.injEq] at h2
        subst h2
        refine ⟨t, decl, h1, rfl, ?_⟩
        rcases h3 with hg | hc
        · exact absurd hg (not_generic_of_not_mem f.typ.ins hn j decl hd)
        · exact hc
    · intro params i t decl ht hd hc hnn hmin
      exact Call_not_convertible f.typ f.body params i t decl ht hd
        (not_generic_of_not_mem f.typ.ins hn i decl hd) hc hnn
        (fun j tj dj hj h1 h2 => Or.inr (hmin j tj dj hj h1 h2))

theorem New_wildcard_entries_witness :
    leavesRecord (readOnly (SimpleParamValidator none none)) ∧
      New (.func fnTimes3) (readOnly (SimpleParamValidator none none)) =
        .ok (some ⟨signatureOf fnTimes3⟩, none) ∧
      GenericType ∉ fnTimes3.typ.ins ∧
      genericType ∉ (GenericFunc.mk (signatureOf fnTimes3)).Cache.TypesIn ∧
      (GenericFunc.mk (signatureOf fnTimes3)).Call [notAnInt] =
        .ok (none, some "GenericFunc.Call: params[0] 'string' is not convertible to 'int'") :=
  have hn : GenericType ∉ fnTimes3.typ.ins := by decide
  have hall := (New_wildcard_entries fnTimes3 (readOnly (SimpleParamValidator none none))
    ⟨signatureOf fnTimes3⟩ (readOnly_leavesRecord _) rfl).2.2.2 hn
  ⟨readOnly_leavesRecord _, rfl, hn, hall.1,
    hall.2.2 [notAnInt] 0 (.data (.basic .string)) (.basic .int) rfl rfl rfl
      (fun j hj => absurd hj (Nat.not_lt_zero j))
      (fun j _ _ hj => absurd hj (Nat.not_lt_zero j))⟩

/-- C15 as stated fails. `func(g GenericType) {}` is accepted by `New`, the single
entry of its `TypesIn` is the wildcard marker, and `Call` with a string argument, whose
type is not convertible to `GenericType`, completes its check loop and faults inside
the reflective call. And `func(i int) int`, which declares no `GenericType`, is
accepted by the validator that writes the marker into the record: its `TypesIn` is the
marker and `Call` with a string argument faults the same way. -/
theorem New_wildcard_declared :
    New (.func fnGeneric) (readOnly (SimpleParamValidator (some [some GenericType]) (some []))) =
        .ok (some ⟨signatureOf fnGeneric⟩, none) ∧
      (GenericFunc.mk (signatureOf fnGeneric)).Cache.TypesIn = [genericType] ∧
      (DynType.data (.basic .string)).ConvertibleTo genericType = .ok false ∧
      Call.checkParams (signatureOf fnGeneric).TypesIn 0 [notAnInt] =
        .ok (.ok [ValueOf notAnInt]) ∧
      (GenericFunc.mk (signatureOf fnGeneric)).Call [notAnInt] =
        .error (Fault.reflectPanic
          "reflect: Call using string as type genericfunc.GenericType") ∧
      GenericType ∉ fnTimes3.typ.ins ∧
      New (.func fnTimes3) wildcardingValidator =
        .ok (some ⟨⟨Value.func fnTimes3, some fnTimes3.typ, [genericType],
          [some (GoType.basic Basic.int)]⟩⟩, none) ∧
      (GenericFunc.mk ⟨Value.func fnTimes3, some fnTimes3.typ, [genericType],
          [some (GoType.basic Basic.int)]⟩).Call [notAnInt] =
        .error (Fault.reflectPanic "reflect: Call using string as type int") := by
  refine ⟨rfl, rfl, rfl, rfl, rfl, by decide, rfl, rfl⟩

/-- The amended C18: two validators that both accept a function and leave the
record as it was given make `New` return wrappers with the same signature record, the
one derived from the function alone, and `Call` on the two wrappers has the same
outcome for every argument list. -/
theorem New_validator_independent (f : FuncValue) (v1 v2 : Validator) (w1 w2 : GenericFunc)
    (hro1 : leavesRecord v1) (hro2 : leavesRecord v2)
    (h1 : New (.func f) v1 = .ok (some w1, none))
    (h2 : New (.func f) v2 = .ok (some w2, none)) :
    w1.Cache = signatureOf f ∧ w1.Cache = w2.Cache ∧
      ∀ params, w1.Call params = w2.Call params := by
  have e1 := New_ok_wrapper f v1 w1 hro1 h1
  have e2 := New_ok_wrapper f v2 w2 hro2 h2
  subst e1
  subst e2
  exact ⟨rfl, rfl, fun _ => rfl⟩

theorem New_validator_independent_witness :
    New (.func fnTimes3)
        (readOnly (SimpleParamValidator (some [genericType]) (some [some (.basic .int)]))) =
        .ok (some ⟨signatureOf fnTimes3⟩, none) ∧
      New (.func fnTimes3)
        (readOnly (SimpleParamValidator (some [some (.basic .int)]) (some [some (.basic .int)]))) =
        .ok (some ⟨signatureOf fnTimes3⟩, none) ∧
      (GenericFunc.mk (signatureOf fnTimes3)).Call [notAnInt] =
        .ok (none, some "GenericFunc.Call: params[0] 'string' is not convertible to 'int'") ∧
      (GenericFunc.mk (signatureOf fnTimes3)).Call [three] =
        .ok (some [Iface.data ⟨.basic .int, .int 9⟩], none) ∧
      ∀ params, (GenericFunc.mk (signatureOf fnTimes3)).Call params =
        (GenericFunc.mk (signatureOf fnTimes3)).Call params :=
  ⟨rfl, rfl, rfl, rfl,
    (New_validator_independent fnTimes3
      (readOnly (SimpleParamValidator (some [genericType]) (some [some (.basic .int)])))
      (readOnly (SimpleParamValidator (some [some (.basic .int)]) (some [some (.basic .int)])))
      ⟨signatureOf fnTimes3⟩ ⟨signatureOf fnTimes3⟩ (readOnly_leavesRecord _)
      (readOnly_leavesRecord _) rfl rfl).2.2⟩

/-- C18 as stated fails: `func(i int) int` is accepted both by the validator built
from `int` and `int` and by the validator that writes the wildcard marker into the
record; the two wrappers hold different input types, and `Call` with a string argument
returns the not-convertible error on the first and faults inside the reflective call
on the second. -/
theorem New_validators_disagree :
    New (.func fnTimes3)
        (readOnly (SimpleParamValidator (some [some (.basic .int)]) (some [some (.basic .int)]))) =
        .ok (some ⟨signatureOf fnTimes3⟩, none) ∧
      New (.func fnTimes3) wildcardingValidator =
        .ok (some ⟨⟨Value.func fnTimes3, some fnTimes3.typ, [genericType],
          [some (GoType.basic Basic.int)]⟩⟩, none) ∧
      (signatureOf fnTimes3).TypesIn ≠ [genericType] ∧
      (GenericFunc.mk (signatureOf fnTimes3)).Call [notAnInt] =
        .ok (none, some "GenericFunc.Call: params[0] 'string' is not convertible to 'int'") ∧
      (GenericFunc.mk ⟨Value.func fnTimes3, some fnTimes3.typ, [genericType],
          [some (GoType.basic Basic.int)]⟩).Call [notAnInt] =
        .error (Fault.reflectPanic "reflect: Call using string as type int") := by
  refine ⟨rfl, rfl, by decide, rfl, rfl⟩

theorem checkParams_no_fault (TypesIn : List RType) :
    ∀ (params : List Iface) (k : Nat),
      (∀ x ∈ params, x ≠ Iface.nil) →
      (∀ j, j < params.length → ∃ d, TypesIn[k + j]? = some (some d)) →
      ∃ r, Call.checkParams TypesIn k params = .ok r := by
  intro params
  induction params with
  | nil => intro k _ _; exact ⟨.ok [], rfl⟩
  | cons x rest ih =>
    intro k hnn hdecl
    obtain ⟨t, ht⟩ := runtimeType_of_ne_nil x (hnn x (List.mem_cons_self _ _))
    obtain ⟨d, hd⟩ := hdecl 0 (by simp)
    simp only [Nat.add_zero] at hd
    have hidx : index TypesIn k = .ok (some d) := (index_ok_iff _ _ _).2 hd
    obtain ⟨r, hr⟩ := ih (k + 1) (fun y hy => hnn y (List.mem_cons_of_mem x hy))
      (fun j hj => by
        simpa [Nat.add_assoc, Nat.add_comm 1 j] using hdecl (j + 1) (by simpa using hj))
    rw [checkParams_cons, Type_of_runtimeType x t ht, hidx, hr]
    have hconv : ∃ b, t.ConvertibleTo (some d) = .ok b := by
      cases t <;> exact ⟨_, rfl⟩
    obtain ⟨b, hb⟩ := hconv
    by_cases hg : some d = genericType
    · cases r <;> simp [hg]
    · cases b <;> cases r <;> simp [hg, hb]

/-- C19: `func(p *int, b int) {}` called with a nil pointer argument and `3`, two
arguments for two declared input types: the first loop of `Call` neither returns a
not-convertible error nor reaches the invocation, it faults on the nil argument. -/
theorem Call_check_faults_on_nil :
    [Iface.nil, three].length = (signatureOf fnPtrInt).TypesIn.length ∧
      Call.checkParams (signatureOf fnPtrInt).TypesIn 0 [Iface.nil, three] =
        .error (Fault.reflectPanic "reflect: call of reflect.Value.Type on zero Value") ∧
      (GenericFunc.mk (signatureOf fnPtrInt)).Call [Iface.nil, three] =
        .error (Fault.reflectPanic "reflect: call of reflect.Value.Type on zero Value") := by
  refine ⟨rfl, rfl, rfl⟩

/-! ## Descriptors derived from samples -/

theorem Kind_eq_Ptr_iff (t : GoType) : t.Kind = Kind.Ptr ↔ ∃ e, t.underlying = GoType.ptr e := by
  induction t with
  | basic b => simp [GoType.Kind, GoType.underlying]
  | named n u ih => simpa [GoType.Kind, GoType.underlying] using ih
  | slice e _ => simp [GoType.Kind, GoType.underlying]
  | ptr e _ => simp [GoType.Kind, GoType.underlying]

theorem NewElemTypeSlice_step (v : GoValue) :
    (if v.typ.Kind = Kind.Ptr then
        match v.typ.Elem with
        | .error e => (.error e : Except Fault RType)
        | .ok t => .ok (some t)
      else .ok none) = .ok (pointedTo (Iface.data v)) := by
  by_cases hk : v.typ.Kind = Kind.Ptr
  · obtain ⟨e, he⟩ := (Kind_eq_Ptr_iff v.typ).1 hk
    simp [hk, GoType.Elem, pointedTo, he]
  · have hnot : ∀ e, v.typ.underlying ≠ GoType.ptr e := fun e he =>
      hk ((Kind_eq_Ptr_iff v.typ).2 ⟨e, he⟩)
    simp only [hk, if_false, pointedTo, Except.ok.injEq]

/-- For every sequence of non-nil sample values, `NewElemTypeSlice` returns one
descriptor per sample, the pointed-to type (one level of dereference) for a sample of
pointer kind and the zero descriptor for any other sample. -/
theorem NewElemTypeSlice_of_non_nil (items : List Iface)
    (h : ∀ x ∈ items, x ≠ Iface.nil) :
    NewElemTypeSlice items = .ok (items.map pointedTo) ∧
      ∀ ts, NewElemTypeSlice items = .ok ts → ts.length = items.length := by
  have main : NewElemTypeSlice items = .ok (items.map pointedTo) := by
    induction items with
    | nil => rfl
    | cons x rest ih =>
      have hrest := ih (fun y hy => h y (List.mem_cons_of_mem x hy))
      cases x with
      | nil => exact absurd rfl (h Iface.nil (List.mem_cons_self _ _))
      | func g => simp [NewElemTypeSlice, hrest, pointedTo]
      | data v =>
        have hstep := NewElemTypeSlice_step v
        by_cases hk : v.typ.Kind = Kind.Ptr
        · simp only [hk, if_true] at hstep
          cases hE : v.typ.Elem with
          | error e => simp [hE] at hstep
          | ok t =>
            simp only [hE, Except.ok.injEq] at hstep
            simp [NewElemTypeSlice, hk, hE, hrest, hstep]
        · simp only [hk, if_false, Except.ok.injEq] at hstep
          simp [NewElemTypeSlice, hk, hrest, ← hstep]
  refine ⟨main, fun ts hts => ?_⟩
  rw [main] at hts
  simp only [Except.ok.injEq] at hts
  subst hts
  simp

theorem NewElemTypeSlice_of_non_nil_example :
    (∀ x ∈ [newSample (GoType.basic Basic.int), three], x ≠ Iface.nil) ∧
      NewElemTypeSlice [newSample (GoType.basic Basic.int), three] =
        .ok [some (GoType.basic Basic.int), none] :=
  have hn : ∀ x ∈ [newSample (GoType.basic Basic.int), three], x ≠ Iface.nil := by
    intro x hx
    simp only [List.mem_cons, List.mem_singleton, List.not_mem_nil, or_false] at hx
    rcases hx with rfl | rfl <;> simp [newSample, three]
  ⟨hn, (NewElemTypeSlice_of_non_nil [newSample (GoType.basic Basic.int), three] hn).1⟩

/-- C14: for the samples `new(int)` and nil, the nil sample is not a pointer, and
`NewElemTypeSlice` returns no sequence with the zero descriptor at its position: it
faults calling `Kind()` on the nil type descriptor of the nil sample. -/
theorem NewElemTypeSlice_nil_sample_faults :
    pointedTo Iface.nil = none ∧
      NewElemTypeSlice [newSample (GoType.basic Basic.int), Iface.nil] =
        .error Fault.nilDereference := by
  constructor <;> rfl

end genericfunc
